import Mathlib

/-!
Verification of the ctxt backend's core decision logic against its spec.

Python strings are modelled as `List Char` (a Python `str` is a sequence of
Unicode code points).  Machine-independent Python integers are `Int`/`Nat`.
Functions that raise exceptions are modelled with `Except`/`Option`.
-/

/-! ## Python string primitives used by the services -/

/-- Characters Python's `str.strip()` and the regex class `\s` treat as
whitespace (ASCII whitespace plus the common Unicode space code points). -/
def pySpace (c : Char) : Bool :=
  c = ' ' ∨ c = '\t' ∨ c = '\n' ∨ c = '\r' ∨ c.toNat = 0x0b ∨ c.toNat = 0x0c ∨
  c.toNat = 0x1c ∨ c.toNat = 0x1d ∨ c.toNat = 0x1e ∨ c.toNat = 0x1f ∨
  c.toNat = 0x85 ∨ c.toNat = 0xa0 ∨ c.toNat = 0x1680 ∨
  (0x2000 ≤ c.toNat ∧ c.toNat ≤ 0x200a) ∨
  c.toNat = 0x2028 ∨ c.toNat = 0x2029 ∨ c.toNat = 0x202f ∨
  c.toNat = 0x205f ∨ c.toNat = 0x3000

/-- Python `str.strip()` with no argument: drop whitespace from both ends. -/
def py_strip (s : List Char) : List Char :=
  ((s.dropWhile pySpace).reverse.dropWhile pySpace).reverse

/-- Python `str.strip(chars)` for a single strip character: drop that character
from both ends. -/
def py_strip_char (ch : Char) (s : List Char) : List Char :=
  ((s.dropWhile (· = ch)).reverse.dropWhile (· = ch)).reverse

/-- ASCII lowercasing of one character, as Python `str.lower()` acts on the
ASCII range (the identity strings and slugs under study are ASCII). -/
def py_lower_char (c : Char) : Char :=
  if 'A' ≤ c ∧ c ≤ 'Z' then Char.ofNat (c.toNat + 32) else c

/-- Python `str.lower()` restricted to the ASCII range. -/
def py_lower (s : List Char) : List Char := s.map py_lower_char

/-- Python substring containment `needle in hay`. -/
def contains_sub (hay needle : List Char) : Bool :=
  match hay with
  | [] => needle.isPrefixOf []
  | _ :: t => needle.isPrefixOf hay || contains_sub t needle

/-- Python `str.replace(old, new)`: scan left to right, replacing each
non-overlapping occurrence of `old` (assumed nonempty here) with `new`.
Fuel-driven so the definition is total; the fuel `s.length + 1` always
suffices because each replacement consumes at least one character. -/
def py_replace_go (old new : List Char) : Nat → List Char → List Char
  | 0, s => s
  | _ + 1, [] => []
  | fuel + 1, c :: t =>
      if old.isPrefixOf (c :: t) ∧ old ≠ [] then
        new ++ py_replace_go old new fuel ((c :: t).drop old.length)
      else
        c :: py_replace_go old new fuel t

/-- Python `str.replace(old, new)` (for nonempty `old`). -/
def py_replace (old new s : List Char) : List Char :=
  py_replace_go old new (s.length + 1) s

/-- Split a list at the first occurrence of a delimiter: `(before, after)`
with the delimiter removed; the whole list and `none` when absent.  This
models Python `str.split(d, 1)` / `str.partition(d)`. -/
def splitOnFirst (d : Char) : List Char → List Char × Option (List Char)
  | [] => ([], none)
  | c :: t =>
      if c = d then ([], some t)
      else
        let r := splitOnFirst d t
        (c :: r.1, r.2)

/-- Decimal digit character for `d < 10`. -/
def decDigitChar (d : Nat) : Char := Char.ofNat ('0'.toNat + d)

/-- Decimal digits of a natural number accumulated onto `acc`, most
significant digit first (the digits Python's `str(n)` prints). -/
def natDecAux : Nat → List Char → List Char
  | n, acc =>
    if h : n < 10 then decDigitChar n :: acc
    else natDecAux (n / 10) (decDigitChar (n % 10) :: acc)
  termination_by n _ => n
  decreasing_by exact Nat.div_lt_self (by omega) (by omega)

/-- Python `str(n)` for a natural number. -/
def natDec (n : Nat) : List Char := natDecAux n []

/-- Python `str(i)` for an integer. -/
def intDec (i : Int) : List Char :=
  if i < 0 then '-' :: natDec i.natAbs else natDec i.natAbs

/-! ## Slug generation (`ConversionService.generate_slug` / `ensure_unique_slug`) -/

/-- Character class `[a-z0-9]`. -/
def isLowerAlnum (c : Char) : Bool :=
  ('a' ≤ c ∧ c ≤ 'z') ∨ ('0' ≤ c ∧ c ≤ '9')

/-- Dropping a matched front segment never lengthens a list. -/
theorem dropWhile_length_le (p : Char → Bool) (l : List Char) :
    (l.dropWhile p).length ≤ l.length := by
  induction l with
  | nil => simp [List.dropWhile]
  | cons c t ih =>
      by_cases h : p c
      · simp only [List.dropWhile, h]
        exact Nat.le_succ_of_le ih
      · simp [List.dropWhile, h]

/-- One pass of `re.sub(r'\s+', '-', s)`: collapse each maximal run of
whitespace into a single hyphen. -/
def collapseSpaceRuns : List Char → List Char
  | [] => []
  | c :: t =>
      if pySpace c then
        '-' :: collapseSpaceRuns (t.dropWhile pySpace)
      else
        c :: collapseSpaceRuns t
  termination_by l => l.length
  decreasing_by
    · simpa using Nat.lt_succ_of_le (dropWhile_length_le pySpace t)
    · simp

/-- One pass of `re.sub(r'-+', '-', s)`: collapse each maximal run of hyphens
into a single hyphen. -/
def collapseHyphenRuns : List Char → List Char
  | [] => []
  | c :: t =>
      if c = '-' then
        '-' :: collapseHyphenRuns (t.dropWhile (· = '-'))
      else
        c :: collapseHyphenRuns t
  termination_by l => l.length
  decreasing_by
    · simpa using Nat.lt_succ_of_le (dropWhile_length_le (fun c => c = (Char.ofNat 45)) t)
    · simp

/-- Modelled from the spec: `hashlib.md5(url.encode()).hexdigest()` is an
external standard-library primitive (the spec calls it "content hash(url)").
Only its determinism and its hexadecimal output shape matter to any claim, so
it is modelled as a fixed 32-hex-digit polynomial fingerprint of the input. -/
def md5_hexdigest (s : List Char) : List Char :=
  let h := s.foldl (fun a c => (a * 65599 + c.toNat) % (2 ^ 128)) 5381
  (List.range 32).map (fun i =>
    let d := h / 16 ^ i % 16
    if d < 10 then decDigitChar d else Char.ofNat ('a'.toNat + (d - 10)))

/-! ## `urllib.parse` model (urlsplit / urlunsplit / hostname) -/

/-- Result of `urllib.parse.urlsplit`: the five URL components.  Parameters
(`;`-separated path params of `urlparse`) are never separated here, so
reassembly agrees with `urlunparse (urlparse u)` on the inputs considered. -/
structure UrlParts where
  scheme : List Char
  netloc : List Char
  path : List Char
  query : List Char
  fragment : List Char
deriving Repr, DecidableEq

/-- ASCII letter. -/
def isAsciiAlpha (c : Char) : Bool :=
  ('a' ≤ c ∧ c ≤ 'z') ∨ ('A' ≤ c ∧ c ≤ 'Z')

/-- Characters allowed in a URL scheme after the first (letters, digits,
plus, minus, dot), as in `urllib.parse.scheme_chars`. -/
def isSchemeChar (c : Char) : Bool :=
  isAsciiAlpha c ∨ ('0' ≤ c ∧ c ≤ '9') ∨ c = '+' ∨ c = '-' ∨ c = '.'

/-- Scheme extraction step of `urlsplit`: when the text up to the first `:`
is a well-formed scheme starting with a letter, split it off lowercased;
otherwise the scheme is empty and the input is left whole. -/
def splitScheme (url : List Char) : List Char × List Char :=
  match splitOnFirst ':' url with
  | (before, some rest) =>
      if before ≠ [] ∧ isAsciiAlpha (before.headD ' ') ∧ before.all isSchemeChar then
        (py_lower before, rest)
      else ([], url)
  | (_, none) => ([], url)

/-- Netloc delimiter characters: the netloc of `//netloc...` extends to the
first `/`, `?` or `#`. -/
def isNetlocStop (c : Char) : Bool := c = '/' ∨ c = '?' ∨ c = '#'

/-- The `urlsplit` step taking the netloc out of `//netloc<rest>` (the input
here is already past the `//`). -/
def splitNetloc (s : List Char) : List Char × List Char :=
  (s.takeWhile (fun c => ¬ isNetlocStop c), s.dropWhile (fun c => ¬ isNetlocStop c))

/-- The part of `netloc` after the last `@` (CPython `netloc.rpartition('@')`),
or all of it when there is no `@`. -/
def afterLastAt (s : List Char) : List Char :=
  (s.reverse.takeWhile (· ≠ '@')).reverse

/-- Hostname of a netloc, as CPython `_hostinfo` computes it: strip userinfo
at the last `@`; inside `[...]` take up to `]`, otherwise take up to `:`;
lowercase; `none` when empty. -/
def netloc_hostname (netloc : List Char) : Option (List Char) :=
  let hostinfo := afterLastAt netloc
  let hostname :=
    match splitOnFirst '[' hostinfo with
    | (_, some bracketed) => (splitOnFirst ']' bracketed).1
    | (_, none) => (splitOnFirst ':' hostinfo).1
  if hostname = [] then none else some (py_lower hostname)

/-- Model of `urllib.parse.urlsplit` (and of `urlparse` up to the parameter
split, which `urlunparse` undoes).  Raises `ValueError` — modelled as
`Except.error` — exactly when the netloc has an unmatched square bracket
(CPython "Invalid IPv6 URL"). -/
def urlsplit_exc (url : List Char) : Except Unit UrlParts :=
  let (scheme, rest) := splitScheme url
  let (netloc, rest) :=
    if rest.take 2 = ['/', '/'] then splitNetloc (rest.drop 2) else ([], rest)
  if (('[' ∈ netloc) ∧ (']' ∉ netloc)) ∨ ((']' ∈ netloc) ∧ ('[' ∉ netloc)) then
    .error ()
  else
    let (rest, fragment) := splitOnFirst '#' rest
    let (path, query) := splitOnFirst '?' rest
    .ok ⟨scheme, netloc, path, query.getD [], fragment.getD []⟩

/-- Model of `urllib.parse.urlunsplit`, reassembling the five components. -/
def urlunsplit (p : UrlParts) : List Char :=
  let url := p.path
  let url :=
    if p.netloc ≠ [] ∨ url.take 2 = ['/', '/'] then
      ['/', '/'] ++ p.netloc ++
        (if url ≠ [] ∧ url.headD ' ' ≠ '/' then '/' :: url else url)
    else url
  let url := if p.scheme ≠ [] then p.scheme ++ [':'] ++ url else url
  let url := if p.query ≠ [] then url ++ ['?'] ++ p.query else url
  if p.fragment ≠ [] then url ++ ['#'] ++ p.fragment else url

/-! ## `URLValidator.validate_url` (`app/core/validators.py`) -/

/-- The error branches of `URLValidator.validate_url`, in source order:
"URL is required and must be a string", "Invalid URL format" (urlparse
raised), "URL scheme must be one of: http, https", "URL must have a valid
hostname", "URL domain is not allowed". -/
inductive UrlValidationError where
  | required
  | invalid_format
  | bad_scheme
  | no_hostname
  | blocked_domain
deriving Repr, DecidableEq

/-- `URLValidator.BLOCKED_DOMAINS`: the six exact blocklist literals. -/
def BLOCKED_DOMAINS : List (List Char) :=
  ["localhost".data, "127.0.0.1".data, "0.0.0.0".data,
   "10.0.0.0/8".data, "172.16.0.0/12".data, "192.168.0.0/16".data]

/-- `URLValidator.ALLOWED_SCHEMES`. -/
def ALLOWED_SCHEMES : List (List Char) := ["http".data, "https".data]

/-- Model of `URLValidator.validate_url`: reject empty input, strip, parse
(parse failure becomes a `ValidationError`), check scheme, netloc and the
hostname blocklist, and return the reassembled URL. -/
def validate_url (url : List Char) : Except UrlValidationError (List Char) :=
  if url = [] then .error .required
  else
    let url := py_strip url
    match urlsplit_exc url with
    | .error _ => .error .invalid_format
    | .ok parsed =>
        if py_lower parsed.scheme ∉ ALLOWED_SCHEMES then .error .bad_scheme
        else if parsed.netloc = [] then .error .no_hostname
        else
          match netloc_hostname parsed.netloc with
          | some hostname =>
              if py_lower hostname ∈ BLOCKED_DOMAINS then .error .blocked_domain
              else .ok (urlunsplit parsed)
          | none => .ok (urlunsplit parsed)

/-! ## Conversion service (`app/services/conversion.py`) -/

/-- When a delimiter is found, the remainder after it is strictly shorter
than the input. -/
theorem splitOnFirst_rest_lt (d : Char) :
    ∀ (s rest : List Char) (l : List Char),
      splitOnFirst d s = (l, some rest) → rest.length < s.length := by
  intro s
  induction s with
  | nil => intro rest l h; simp [splitOnFirst] at h
  | cons c t ih =>
      intro rest l h
      by_cases hc : c = d
      · simp [splitOnFirst, hc] at h
        simp [← h.2]
      · simp only [splitOnFirst, hc, if_false] at h
        have h2 : (splitOnFirst d t).2 = some rest := by
          have := congrArg Prod.snd h
          simpa using this
        have := ih rest (splitOnFirst d t).1 (by
          rw [show splitOnFirst d t = ((splitOnFirst d t).1, (splitOnFirst d t).2) from rfl, h2])
        simp only [List.length_cons]
        omega

/-- Python `text.split('\n')` (keeps empty pieces). -/
def splitLines (s : List Char) : List (List Char) :=
  match hs : splitOnFirst '\n' s with
  | (l, some rest) => l :: splitLines rest
  | (l, _) => [l]
  termination_by s.length
  decreasing_by exact splitOnFirst_rest_lt '\n' s rest l hs

/-- Markdown punctuation removed by `re.sub(r'[#*`_\[\]()]+', '', text)`. -/
def isMdPunct (c : Char) : Bool :=
  c = '#' ∨ c = '*' ∨ c.toNat = 96 ∨ c = '_' ∨ c = '[' ∨ c = ']' ∨ c = '(' ∨ c = ')'

/-- Count of the pieces of Python `s.split()` (split on whitespace runs,
empties discarded). -/
def countWsTokens : List Char → Nat
  | [] => 0
  | c :: t =>
      if pySpace c then countWsTokens t
      else 1 + countWsTokens (t.dropWhile (fun d => ¬ pySpace d))
  termination_by l => l.length
  decreasing_by
    · simp
    · simpa using Nat.lt_succ_of_le (dropWhile_length_le (fun d => ¬ pySpace d) t)

/-- `ConversionService._count_words`: strip markdown punctuation, split on
whitespace, count tokens. -/
def count_words (text : List Char) : Nat :=
  countWsTokens (text.filter (fun c => ¬ isMdPunct c))

/-- Python 3 `round` (banker's rounding) of `wc / 200`; the tie `wc/200 = k + 1/2`
is exactly representable in binary floating point, so the rational model is
exact. -/
def roundDiv200 (wc : Nat) : Nat :=
  let q := wc / 200
  let r := wc % 200
  if r < 100 then q
  else if 100 < r then q + 1
  else if q % 2 = 0 then q else q + 1

/-- `ConversionService._calculate_reading_time`: `max(1, round(word_count / 200))`. -/
def calculate_reading_time (word_count : Nat) : Nat :=
  max 1 (roundDiv200 word_count)

/-- `ConversionService._extract_title`: first stripped line among the first 10
that starts with "# ", minus that marker, stripped; else `None`. -/
def extract_title (markdown : List Char) : Option (List Char) :=
  let rec go : List (List Char) → Option (List Char)
    | [] => none
    | l :: rest =>
        let l := py_strip l
        if l.take 2 = ['#', ' '] then some (py_strip (l.drop 2)) else go rest
  go ((splitLines markdown).take 10)

/-- `ConversionService._extract_domain`: the `netloc` of the URL, or
"unknown" when parsing raises.  Note: no `www.` stripping happens here. -/
def extract_domain (url : List Char) : List Char :=
  match urlsplit_exc url with
  | .ok parsed => parsed.netloc
  | .error _ => "unknown".data

/-- `ConversionService._generate_description`: first stripped line of the
punctuation-cleaned content longer than 50 characters not starting with the
title, with the fallback literal and the 197-character truncation. -/
def generate_description (content : List Char) (title : Option (List Char)) :
    List Char :=
  let cleanLines := splitLines (content.filter (fun c => ¬ isMdPunct c))
  let rec firstGood : List (List Char) → List Char
    | [] => []
    | l :: rest =>
        let l := py_strip l
        if 50 < l.length ∧ ¬ (title.getD []).isPrefixOf l then l
        else firstGood rest
  let description := firstGood cleanLines
  let description :=
    if description = [] then "Clean markdown conversion from webpage".data
    else description
  if 197 < description.length then description.take 194 ++ "...".data
  else description

/-- Python slice `s[:i]` for an `Int` bound (negative bounds count from the
end of the string). -/
def py_slice_to (s : List Char) (i : Int) : List Char :=
  if 0 ≤ i then s.take i.toNat else s.take (s.length - i.natAbs)

/-- `ConversionService.generate_slug`.  The title branch never touches the
URL; the URL branch calls `urlparse`, whose (rare) `ValueError` propagates,
hence the `Except`. -/
def generate_slug (url : List Char) (title : Option (List Char)) :
    Except Unit (List Char) := do
  let slug ←
    match title with
    | some t =>
        if t ≠ [] ∧ 10 < (py_strip t).length then
          let slug := py_lower t
          let slug := slug.filter (fun c => isLowerAlnum c ∨ pySpace c ∨ c = '-')
          let slug := collapseSpaceRuns slug
          let slug := collapseHyphenRuns slug
          pure (py_strip_char '-' (slug.take 80))
        else fromUrl
    | none => fromUrl
  if slug = [] ∨ slug.length < 3 then
    pure ("conversion-".data ++ (md5_hexdigest url).take 8)
  else
    pure slug
where
  fromUrl : Except Unit (List Char) := do
    let parsed ← urlsplit_exc url
    let slug := (py_strip_char '/' parsed.path).map (fun c => if c = '/' then '-' else c)
    let slug := (py_lower slug).filter (fun c => isLowerAlnum c ∨ c = '-')
    pure (py_strip_char '-' (slug.take 80))

/-- The body of `ConversionService.ensure_unique_slug`'s while loop.  The
fuel only bounds the iteration count of the model; `existing.length + 1`
iterations always reach a slug outside `existing`. -/
def ensure_unique_go (existing : List (List Char)) (base : List Char) :
    Nat → List Char → Nat → List Char
  | 0, slug, _ => slug
  | fuel + 1, slug, counter =>
      if slug ∈ existing then
        let suffix := '-' :: natDec counter
        let next :=
          if 100 < base.length + suffix.length then
            py_slice_to base (100 - (suffix.length : Int)) ++ suffix
          else base ++ suffix
        ensure_unique_go existing base fuel next (counter + 1)
      else slug

/-- `ConversionService.ensure_unique_slug`: append `-1`, `-2`, … while the
slug collides with an existing one, truncating the base so the total stays
within 100 characters. -/
def ensure_unique_slug (existing : List (List Char)) (base : List Char) :
    List Char :=
  ensure_unique_go existing base (existing.length + 1) base 1

/-! ## Tier policy (`app/core/config.py`) and rate limiter
(`app/services/rate_limiter.py`)

Timestamps are UTC seconds (a `Nat`); `timedelta(days=1)` is 86400 seconds.
`settings.rate_limit_free_daily` is environment-configurable (default 5), so
it is a parameter `freeDaily` of the model. -/

/-- Daily limit field of `TIER_CONFIGS`, with `get_tier_config`'s
fallback-to-free for unknown tier names.  `none` is Python `None`
(unlimited). -/
def get_daily_limit (freeDaily : Int) (tier : String) : Option Int :=
  if tier = "power" ∨ tier = "pro" ∨ tier = "enterprise" then none
  else some freeDaily

/-- A `User` row, as far as rate limiting needs it. -/
structure RLUser where
  id : Nat
  tier : String
deriving Repr, DecidableEq

/-- A `Conversion` row, as far as rate limiting needs it. -/
structure RLConversion where
  user_id : Option Nat
  created_at : Nat
deriving Repr, DecidableEq

/-- The dict returned by `RateLimiter.check_rate_limit` (the `reset_time`
is kept as seconds rather than an ISO string). -/
structure RateLimitInfo where
  allowed : Bool
  tier : String
  daily_limit : Option Int
  remaining : Option Int
  reset_time : Option Nat
  current_usage : Nat
deriving Repr, DecidableEq

/-- The usage query inside `check_rate_limit`: conversions of this user with
`created_at >= now - 1 day`. -/
def usage_query (db : List RLConversion) (uid : Nat) (now : Nat) : Nat :=
  (db.filter (fun c => c.user_id = some uid ∧ now - 86400 ≤ c.created_at)).length

/-- Model of `RateLimiter.check_rate_limit`. -/
def check_rate_limit (freeDaily : Int) (db : List RLConversion)
    (user : Option RLUser) (now : Nat) : RateLimitInfo :=
  let tier := match user with
    | none => "free"
    | some u => u.tier
  let daily_limit := get_daily_limit freeDaily tier
  match daily_limit with
  | none =>
      { allowed := true, tier := tier, daily_limit := none, remaining := none,
        reset_time := none, current_usage := 0 }
  | some limit =>
      let current_usage : Nat :=
        match user with
        | some u => usage_query db u.id now
        | none => 0
      let remaining := max 0 (limit - current_usage)
      let allowed := decide ((current_usage : Int) < limit)
      let reset_time := now / 86400 * 86400 + 86400
      { allowed := allowed, tier := tier, daily_limit := some limit,
        remaining := some remaining, reset_time := some reset_time,
        current_usage := current_usage }

/-- The spec's reading of the usage counter: conversions of the account
falling in the closed window `[now - 24h, now]`. -/
def conversions_in_window (db : List RLConversion) (uid : Nat) (now : Nat) : Nat :=
  (db.filter (fun c =>
    c.user_id = some uid ∧ now - 86400 ≤ c.created_at ∧ c.created_at ≤ now)).length

/-! ## Domain derivation in `create_conversion` (`app/api/conversions.py`) -/

/-- The `create_conversion` endpoint's domain computation:
`urlparse(request.source_url).netloc.replace('www.', '')` — note this removes
every occurrence of the substring "www.", not only a leading one.  `none`
models the `ValueError` propagating out of `urlparse`. -/
def create_conversion_domain (source_url : List Char) : Option (List Char) :=
  match urlsplit_exc source_url with
  | .ok parsed => some (py_replace "www.".data [] parsed.netloc)
  | .error _ => none

/-- The spec's stated domain derivation: host component of the source URL
with one leading "www." stripped (and nothing else changed). -/
def spec_domain (source_url : List Char) : Option (List Char) :=
  match urlsplit_exc source_url with
  | .ok parsed =>
      some (if "www.".data.isPrefixOf parsed.netloc then parsed.netloc.drop 4
            else parsed.netloc)
  | .error _ => none

/-! ## The `/convert` request path (`app/api/conversions.py` + pydantic) -/

/-- Errors surfaced by the conversion request path. -/
inductive ConvertError where
  /-- Request-body validation failure (pydantic `HttpUrl` → FastAPI 422). -/
  | validation
  /-- The endpoint's catch-all 400 ("Conversion failed"). -/
  | conversion_failed
deriving Repr, DecidableEq

/-- Modelled from the spec: the request schema's `url: HttpUrl` field is
validated by pydantic (an external collaborator) before the handler body
runs; per the spec the URL "must parse with scheme in {http, https}" and
"must have a non-empty host".  Failure rejects the request as a validation
error. -/
def httpUrl_accepts (url : List Char) : Bool :=
  match urlsplit_exc url with
  | .ok parsed => decide (parsed.scheme ∈ ALLOWED_SCHEMES) && !parsed.netloc.isEmpty
  | .error _ => false

/-- What `ConversionService.convert_url` returns on success. -/
structure ConversionData where
  source_url : List Char
  title : Option (List Char)
  content : List Char
  domain : List Char
  word_count : Nat
  reading_time : Nat
  token_count : Nat
  meta_description : List Char
deriving Repr, DecidableEq

/-- Model of `ConversionService.convert_url`: fetch `{jina_base}/{url}`
through the external extraction collaborator `extract` (its `Except.error`
models timeout/HTTP failure), then derive the metadata.  `tokenizer` models
the external tiktoken encoder (`none` = encoding failure), with the
`max(1, len(text) // 4)` fallback of `TokenCounter.count_tokens`. -/
def convert_url_service (extract : List Char → Except Unit (List Char))
    (tokenizer : List Char → Option Nat) (jina_base : List Char)
    (url : List Char) : Except Unit ConversionData := do
  let content ← extract (jina_base ++ ['/'] ++ url)
  let title := extract_title content
  let word_count := count_words content
  let token_count :=
    if content = [] then 0
    else match tokenizer content with
      | some n => n
      | none => max 1 (content.length / 4)
  pure {
    source_url := url
    title := title
    content := content
    domain := extract_domain url
    word_count := word_count
    reading_time := calculate_reading_time word_count
    token_count := token_count
    meta_description := generate_description content title }

/-- Model of the `/convert` endpoint: pydantic validates the request URL
first; only then does the handler body run and call the extraction service.
The extraction collaborator appears only in the success branch, so a
validation failure provably never consults it. -/
def convert_endpoint (extract : List Char → Except Unit (List Char))
    (tokenizer : List Char → Option Nat) (jina_base : List Char)
    (url : List Char) : Except ConvertError ConversionData :=
  if httpUrl_accepts url then
    match convert_url_service extract tokenizer jina_base url with
    | .ok data => .ok data
    | .error _ => .error .conversion_failed
  else
    .error .validation

/-! ## Bot detection (`app/services/bot_detection.py`) -/

/-- ASCII uppercasing of one character. -/
def py_upper_char (c : Char) : Char :=
  if 'a' ≤ c ∧ c ≤ 'z' then Char.ofNat (c.toNat - 32) else c

/-- Python `str.title()` on ASCII text: uppercase each letter that follows a
non-letter, lowercase the rest. -/
def py_title (s : List Char) : List Char :=
  (s.foldl
    (fun (acc : List Char × Bool) c =>
      let out :=
        if isAsciiAlpha c then
          if acc.2 then py_lower_char c else py_upper_char c
        else c
      (out :: acc.1, isAsciiAlpha c))
    ([], false)).1.reverse

/-- Regex word character (`\w` over the ASCII range). -/
def isWordChar (c : Char) : Bool :=
  isAsciiAlpha c ∨ ('0' ≤ c ∧ c ≤ '9') ∨ c = '_'

/-- The alternatives of the compiled `BOT_PATTERNS` regex: every pattern is a
literal except `bot\b` (literal then word boundary) and `archive\.org`
(whose escaped dot is the literal dot). -/
inductive BotPat where
  | lit (s : List Char)
  | litWordEnd (s : List Char)
deriving Repr, DecidableEq

/-- `BotDetectionService.BOT_PATTERNS`, in source order. -/
def BOT_PATTERNS : List BotPat :=
  [.lit "googlebot".data, .lit "bingbot".data, .lit "slurp".data,
   .lit "duckduckbot".data, .lit "baiduspider".data, .lit "yandexbot".data,
   .lit "facebookexternalhit".data,
   .lit "ahrefsbot".data, .lit "semrushbot".data, .lit "majestic".data,
   .lit "mj12bot".data, .lit "dotbot".data, .lit "screaming frog".data,
   .lit "spyfu".data, .lit "serpstatbot".data,
   .lit "gptbot".data, .lit "chatgpt-user".data, .lit "oai-searchbot".data,
   .lit "claudebot".data, .lit "claude-searchbot".data,
   .lit "perplexitybot".data, .lit "anthropic-ai".data, .lit "claude-web".data,
   .lit "openai".data, .lit "cohere-ai".data,
   .lit "cohere-training-data-crawler".data, .lit "google-extended".data,
   .lit "google-cloudvertexbot".data, .lit "meta-externalagent".data,
   .lit "bytespider".data, .lit "petalbot".data, .lit "amazonbot".data,
   .lit "youbot".data, .lit "diffbot".data, .lit "applebot-extended".data,
   .litWordEnd "bot".data, .lit "crawler".data, .lit "spider".data,
   .lit "scraper".data, .lit "fetch".data, .lit "scan".data,
   .lit "monitor".data, .lit "check".data, .lit "curl".data,
   .lit "wget".data, .lit "http".data, .lit "python".data,
   .lit "requests".data, .lit "urllib".data,
   .lit "twitterbot".data, .lit "linkedinbot".data, .lit "whatsapp".data,
   .lit "telegrambot".data, .lit "slackbot".data, .lit "discordbot".data,
   .lit "archive.org".data, .lit "wayback".data, .lit "ia_archiver".data,
   .lit "nessus".data, .lit "nikto".data, .lit "sqlmap".data, .lit "nmap".data]

/-- Try one alternative at a fixed position (the suffix `s`); the returned
text is what `match.group()` would be. -/
def patMatchAt (s : List Char) : BotPat → Option (List Char)
  | .lit l => if l.isPrefixOf s then some l else none
  | .litWordEnd l =>
      let boundary : Bool :=
        match s.drop l.length with
        | [] => true
        | c :: _ => ¬ isWordChar c
      if l.isPrefixOf s ∧ boundary then some l else none

/-- `self.bot_regex.search(s)`: leftmost match position, and at that position
the first alternative in pattern order; returns the matched text. -/
def bot_regex_search : List Char → Option (List Char)
  | [] => none
  | c :: t =>
      match BOT_PATTERNS.findSome? (patMatchAt (c :: t)) with
      | some m => some m
      | none => bot_regex_search t

/-- `BotDetectionService.KNOWN_BOTS`, in source (insertion) order. -/
def KNOWN_BOTS : List (List Char × List (List Char)) :=
  [("Googlebot".data, ["Googlebot/".data, "GoogleOther".data]),
   ("Google-Extended".data, ["Google-Extended/".data]),
   ("Google-CloudVertexBot".data, ["Google-CloudVertexBot/".data]),
   ("BingBot".data, ["bingbot/".data, "BingPreview/".data]),
   ("GPTBot".data, ["GPTBot/".data]),
   ("ChatGPT-User".data, ["ChatGPT-User/".data, "ChatGPT-User/2.0".data]),
   ("OAI-SearchBot".data, ["OAI-SearchBot/".data]),
   ("ClaudeBot".data, ["ClaudeBot/".data]),
   ("Claude-SearchBot".data, ["Claude-SearchBot/".data]),
   ("Anthropic-AI".data, ["anthropic-ai".data]),
   ("Claude-Web".data, ["Claude-Web".data]),
   ("PerplexityBot".data, ["PerplexityBot/".data]),
   ("Cohere-AI".data, ["cohere-ai".data, "cohere-training-data-crawler".data]),
   ("Meta-ExternalAgent".data, ["meta-externalagent".data, "facebookexternalhit".data]),
   ("ByteSpider".data, ["Bytespider/".data]),
   ("PetalBot".data, ["PetalBot/".data]),
   ("Amazonbot".data, ["Amazonbot/".data]),
   ("YouBot".data, ["YouBot/".data]),
   ("Diffbot".data, ["Diffbot/".data]),
   ("AppleBot-Extended".data, ["Applebot-Extended/".data]),
   ("AhrefsBot".data, ["AhrefsBot/".data]),
   ("SemrushBot".data, ["SemrushBot/".data]),
   ("MJ12Bot".data, ["MJ12bot/".data]),
   ("DotBot".data, ["DotBot/".data])]

/-- `BotDetectionService._classify_bot_type`: keyword buckets checked in
source order against the lowercased identifier. -/
def classify_bot_type (bot_identifier : List Char) : List Char :=
  let b := py_lower bot_identifier
  let hasAny (terms : List String) : Bool :=
    terms.any (fun t => contains_sub b t.data)
  if hasAny ["google", "bing", "yahoo", "duckduck", "baidu", "yandex"] then
    "search_engine".data
  else if hasAny ["ahrefs", "semrush", "majestic", "mj12", "spyfu", "serpstat"] then
    "seo_tool".data
  else if hasAny ["gpt", "chatgpt", "oai-search", "claude", "perplexity",
      "openai", "anthropic", "cohere", "meta-external", "bytespider",
      "petalbot", "amazonbot", "youbot", "diffbot", "applebot-extended",
      "google-extended", "google-cloudvertex"] then
    "ai_crawler".data
  else if hasAny ["facebook", "twitter", "linkedin", "whatsapp", "telegram",
      "slack", "discord"] then
    "social_media".data
  else if hasAny ["archive", "wayback", "ia_archiver"] then
    "archiver".data
  else if hasAny ["nessus", "nikto", "sqlmap", "nmap"] then
    "security_scanner".data
  else
    "generic_bot".data

/-- The dict returned by `BotDetectionService.identify_bot`.  Confidence is
kept in hundredths (0.95 → 95); the first branch of the source omits the
`user_agent` key, modelled as `none`. -/
structure BotDetectionResult where
  is_bot : Bool
  bot_name : Option (List Char)
  bot_type : Option (List Char)
  confidence_pct : Nat
  user_agent : Option (List Char)
deriving Repr, DecidableEq

/-- Model of `BotDetectionService.identify_bot`: falsy identity → not a bot;
then the `KNOWN_BOTS` substring table (confidence 0.95); then the compiled
regex (confidence 0.8); otherwise not a bot. -/
def identify_bot (user_agent : Option (List Char)) : BotDetectionResult :=
  match user_agent with
  | none =>
      { is_bot := false, bot_name := none, bot_type := none,
        confidence_pct := 0, user_agent := none }
  | some ua =>
      if ua = [] then
        { is_bot := false, bot_name := none, bot_type := none,
          confidence_pct := 0, user_agent := none }
      else
        let lower := py_lower ua
        match KNOWN_BOTS.findSome? (fun entry =>
            if entry.2.any (fun pat => contains_sub lower (py_lower pat)) then
              some entry.1
            else none) with
        | some bot_name =>
            { is_bot := true, bot_name := some bot_name,
              bot_type := some (classify_bot_type bot_name),
              confidence_pct := 95, user_agent := some ua }
        | none =>
            match bot_regex_search lower with
            | some matched =>
                { is_bot := true, bot_name := some (py_title matched),
                  bot_type := some (classify_bot_type matched),
                  confidence_pct := 80, user_agent := some ua }
            | none =>
                { is_bot := false, bot_name := none, bot_type := none,
                  confidence_pct := 0, user_agent := some ua }

/-- Model of `BotDetectionService.is_bot` (the standalone boolean helper):
falsy identity → false; strip and lowercase; regex hit → true; then the
short/degenerate heuristic (`len < 10` or one of `''`, `'-'`, `'null'`,
`'none'`) → true. -/
def is_bot_check (user_agent : Option (List Char)) : Bool :=
  match user_agent with
  | none => false
  | some ua =>
      if ua = [] then false
      else
        let ua := py_lower (py_strip ua)
        if (bot_regex_search ua).isSome then true
        else if ua.length < 10 ∨
            ua ∈ [[], "-".data, "null".data, "none".data] then true
        else false

/-- The `markdown_bot_types` set of `should_serve_markdown`. -/
def markdown_bot_types : List (List Char) :=
  ["search_engine".data, "seo_tool".data, "ai_crawler".data, "archiver".data]

/-- Model of `BotDetectionService.should_serve_markdown`: serve the raw
markdown exactly when `identify_bot` says bot and the category is one of the
four plain-text categories. -/
def should_serve_markdown (user_agent : Option (List Char)) : Bool :=
  let r := identify_bot user_agent
  if ¬ r.is_bot then false
  else
    match r.bot_type with
    | some t => t ∈ markdown_bot_types
    | none => false

/-! ## Payment webhooks (`app/services/payment.py`)

`datetime.fromisoformat` is an external standard-library parser; the model
takes it as a parameter `parseIso` (`none` models `ValueError`).  SQLAlchemy
`first()` is first-match in row order; `==` comparisons on nullable columns
follow the `IS NULL` rendering, modelled by `Option` equality. -/

/-- A `User` row, as far as the payment handlers touch it. -/
structure PayUser where
  id : String
  tier : String
  polar_customer_id : Option String
  polar_subscription_id : Option String
  subscription_ends_at : Option String
deriving Repr, DecidableEq

/-- Webhook `event_data` payload fields the handlers read (each `get` with a
missing key yields `None`). -/
structure WebhookEventData where
  id : Option String
  customer_id : Option String
  metadata_user_id : Option String
  metadata_tier : Option String
  current_period_end : Option String
  cancel_at : Option String
deriving Repr, DecidableEq

/-- Update the first row satisfying `p` (SQLAlchemy `query.filter(...).first()`
followed by attribute assignment and commit); no row → no change. -/
def updateFirst (p : PayUser → Bool) (f : PayUser → PayUser) :
    List PayUser → List PayUser
  | [] => []
  | u :: rest => if p u then f u :: rest else u :: updateFirst p f rest

/-- `PaymentService._handle_checkout_completed`: missing `user_id`/`tier`
metadata (absent or empty, both falsy) is logged and ignored; otherwise the
user found by id gets the new tier and the event's customer id. -/
def handle_checkout_completed (db : List PayUser) (d : WebhookEventData) :
    Except Unit (List PayUser) :=
  match d.metadata_user_id, d.metadata_tier with
  | some uid, some tier =>
      if uid = "" ∨ tier = "" then .ok db
      else .ok (updateFirst (fun u => u.id = uid)
        (fun u => { u with tier := tier, polar_customer_id := d.customer_id }) db)
  | _, _ => .ok db

/-- `PaymentService._handle_subscription_created`: find the user by polar
customer id; parse `current_period_end` (default `""`, a parse failure
raises); store the subscription id and period end. -/
def handle_subscription_created (parseIso : String → Option String)
    (db : List PayUser) (d : WebhookEventData) : Except Unit (List PayUser) :=
  match db.find? (fun u => u.polar_customer_id = d.customer_id) with
  | none => .ok db
  | some _ =>
      match parseIso (d.current_period_end.getD "") with
      | none => .error ()
      | some ends =>
          .ok (updateFirst (fun u => u.polar_customer_id = d.customer_id)
            (fun u => { u with polar_subscription_id := d.id,
                               subscription_ends_at := some ends }) db)

/-- `PaymentService._handle_subscription_cancelled`: find the user by polar
subscription id; parse `cancel_at`; store it as the subscription end. -/
def handle_subscription_cancelled (parseIso : String → Option String)
    (db : List PayUser) (d : WebhookEventData) : Except Unit (List PayUser) :=
  match db.find? (fun u => u.polar_subscription_id = d.id) with
  | none => .ok db
  | some _ =>
      match parseIso (d.cancel_at.getD "") with
      | none => .error ()
      | some ends =>
          .ok (updateFirst (fun u => u.polar_subscription_id = d.id)
            (fun u => { u with subscription_ends_at := some ends }) db)

/-- `PaymentService._handle_subscription_updated`: find the user by polar
subscription id; parse `current_period_end`; store it. -/
def handle_subscription_updated (parseIso : String → Option String)
    (db : List PayUser) (d : WebhookEventData) : Except Unit (List PayUser) :=
  match db.find? (fun u => u.polar_subscription_id = d.id) with
  | none => .ok db
  | some _ =>
      match parseIso (d.current_period_end.getD "") with
      | none => .error ()
      | some ends =>
          .ok (updateFirst (fun u => u.polar_subscription_id = d.id)
            (fun u => { u with subscription_ends_at := some ends }) db)

/-- `PaymentService.handle_webhook_event`: dispatch on the event type; an
unhandled type is only logged; a handler exception becomes `PaymentError`
(`Except.error`). -/
def handle_webhook_event (parseIso : String → Option String)
    (db : List PayUser) (event_type : String) (d : WebhookEventData) :
    Except Unit (List PayUser) :=
  if event_type = "checkout.completed" then handle_checkout_completed db d
  else if event_type = "subscription.created" then
    handle_subscription_created parseIso db d
  else if event_type = "subscription.cancelled" then
    handle_subscription_cancelled parseIso db d
  else if event_type = "subscription.updated" then
    handle_subscription_updated parseIso db d
  else .ok db

/-- Final account state after one webhook delivery: on a handler error the
uncommitted session is discarded, so the stored rows are unchanged. -/
def webhook_result_state (parseIso : String → Option String)
    (db : List PayUser) (event_type : String) (d : WebhookEventData) :
    List PayUser :=
  match handle_webhook_event parseIso db event_type d with
  | .ok db2 => db2
  | .error _ => db

/-! ## JSON (`json.dumps(data, indent=2)` / `json.loads`)

`_export_as_json` serializes through the standard `json` module.  The value
space actually stored (JSONB block dicts: strings, integers, booleans,
nulls, arrays, objects) is modelled by `Json`; `json_dumps` mirrors
`json.dumps(·, indent=2)` including its `ensure_ascii` escaping, and
`json_loads` mirrors `json.loads` on such documents (lone surrogates and
floats, which the export never produces, are out of the model). -/

inductive Json where
  | null
  | bool (b : Bool)
  | int (n : Int)
  | str (s : List Char)
  | arr (xs : List Json)
  | obj (members : List (List Char × Json))
deriving Repr

/-- Opening brace character. -/
def lbraceChar : Char := Char.ofNat 123

/-- Closing brace character. -/
def rbraceChar : Char := Char.ofNat 125

/-- Lowercase hexadecimal digit character. -/
def hexDigitChar (d : Nat) : Char :=
  if d < 10 then decDigitChar d else Char.ofNat ('a'.toNat + (d - 10))

/-- A `\uXXXX` escape for a code unit below 0x10000. -/
def uEscape (n : Nat) : List Char :=
  ['\\', 'u', hexDigitChar (n / 4096 % 16), hexDigitChar (n / 256 % 16),
   hexDigitChar (n / 16 % 16), hexDigitChar (n % 16)]

/-- How `json.dumps` (default `ensure_ascii=True`) writes one character:
the named escapes, printable ASCII verbatim, everything else `\uXXXX`
(a surrogate pair above the BMP). -/
def escapeChar (c : Char) : List Char :=
  if c.toNat = 34 then ['\\', Char.ofNat 34]
  else if c.toNat = 92 then ['\\', '\\']
  else if c.toNat = 10 then ['\\', 'n']
  else if c.toNat = 13 then ['\\', 'r']
  else if c.toNat = 9 then ['\\', 't']
  else if c.toNat = 8 then ['\\', 'b']
  else if c.toNat = 12 then ['\\', 'f']
  else if 0x20 ≤ c.toNat ∧ c.toNat ≤ 0x7e then [c]
  else if c.toNat < 0x10000 then uEscape c.toNat
  else
    uEscape (0xd800 + (c.toNat - 0x10000) / 1024) ++
      uEscape (0xdc00 + (c.toNat - 0x10000) % 1024)

/-- A JSON string token: quote, escaped characters, quote. -/
def encodeString (s : List Char) : List Char :=
  Char.ofNat 34 :: s.flatMap escapeChar ++ [Char.ofNat 34]

/-- An indentation prefix of `n` spaces. -/
def nspaces (n : Nat) : List Char := List.replicate n ' '

mutual

/-- `json.dumps(v, indent=2)` at nesting level `level` (so the children of
this value are indented by `2 * (level + 1)` spaces). -/
def json_dumps_val (level : Nat) : Json → List Char
  | .bool false => ['f', 'a', 'l', 's', 'e']
  | .bool true => ['t', 'r', 'u', 'e']
  | .null => ['n', 'u', 'l', 'l']
  | .int n => intDec n
  | .str s => encodeString s
  | .arr [] => ['[', ']']
  | .arr (x :: xs) =>
      '[' :: '\n' :: (nspaces (2 * (level + 1)) ++ json_dumps_val (level + 1) x ++
        json_dumps_items (level + 1) xs ++
        '\n' :: (nspaces (2 * level) ++ [']']))
  | .obj [] => [lbraceChar, rbraceChar]
  | .obj (m :: ms) =>
      lbraceChar :: '\n' :: (nspaces (2 * (level + 1)) ++
        json_dumps_member (level + 1) m ++
        json_dumps_memitems (level + 1) ms ++
        '\n' :: (nspaces (2 * level) ++ [rbraceChar]))

/-- The remaining array items, each preceded by `",\n"` and indentation. -/
def json_dumps_items (level : Nat) : List Json → List Char
  | [] => []
  | x :: xs =>
      ',' :: '\n' :: (nspaces (2 * level) ++ json_dumps_val level x ++
        json_dumps_items level xs)

/-- One object member: encoded key, `": "`, value. -/
def json_dumps_member (level : Nat) : List Char × Json → List Char
  | (k, v) => encodeString k ++ ':' :: ' ' :: json_dumps_val level v

/-- The remaining object members, each preceded by `",\n"` and indentation. -/
def json_dumps_memitems (level : Nat) : List (List Char × Json) → List Char
  | [] => []
  | m :: ms =>
      ',' :: '\n' :: (nspaces (2 * level) ++ json_dumps_member level m ++
        json_dumps_memitems level ms)

end

/-- `json.dumps(v, indent=2)`. -/
def json_dumps (v : Json) : List Char := json_dumps_val 0 v

/-- JSON inter-token whitespace. -/
def isJsonWs (c : Char) : Bool :=
  c = ' ' ∨ c = '\t' ∨ c = '\n' ∨ c = '\r'

/-- Skip inter-token whitespace. -/
def skipJsonWs (s : List Char) : List Char := s.dropWhile isJsonWs

/-- ASCII decimal digit. -/
def isDigitChar (c : Char) : Bool := '0' ≤ c ∧ c ≤ '9'

/-- Value of a hexadecimal digit character. -/
def hexVal? (c : Char) : Option Nat :=
  if '0' ≤ c ∧ c ≤ '9' then some (c.toNat - 48)
  else if 'a' ≤ c ∧ c ≤ 'f' then some (c.toNat - 87)
  else if 'A' ≤ c ∧ c ≤ 'F' then some (c.toNat - 55)
  else none

/-- Value of four hexadecimal digit characters. -/
def hex4? (a b c d : Char) : Option Nat := do
  let va ← hexVal? a
  let vb ← hexVal? b
  let vc ← hexVal? c
  let vd ← hexVal? d
  pure (va * 4096 + vb * 256 + vc * 16 + vd)

/-! Scanning a JSON string body up to its closing quote, decoding escapes
(surrogate pairs recombined); one helper per escape layer. -/

mutual

/-- Scan a string body up to the closing quote. -/
def parseStringBody : List Char → Option (List Char × List Char)
  | [] => none
  | c :: t =>
      if c.toNat = 34 then some ([], t)
      else if c.toNat = 92 then parseEscapeTail t
      else if c.toNat < 0x20 then none
      else (parseStringBody t).map (fun p => (c :: p.1, p.2))

/-- The characters after a backslash. -/
def parseEscapeTail : List Char → Option (List Char × List Char)
  | [] => none
  | e :: t2 =>
      if e.toNat = 34 then
        (parseStringBody t2).map (fun p => (Char.ofNat 34 :: p.1, p.2))
      else if e.toNat = 92 then
        (parseStringBody t2).map (fun p => (Char.ofNat 92 :: p.1, p.2))
      else if e = '/' then
        (parseStringBody t2).map (fun p => ('/' :: p.1, p.2))
      else if e = 'n' then
        (parseStringBody t2).map (fun p => ('\n' :: p.1, p.2))
      else if e = 'r' then
        (parseStringBody t2).map (fun p => ('\r' :: p.1, p.2))
      else if e = 't' then
        (parseStringBody t2).map (fun p => ('\t' :: p.1, p.2))
      else if e = 'b' then
        (parseStringBody t2).map (fun p => (Char.ofNat 8 :: p.1, p.2))
      else if e = 'f' then
        (parseStringBody t2).map (fun p => (Char.ofNat 12 :: p.1, p.2))
      else if e = 'u' then parseUEscapeTail t2
      else none

/-- The four hex digits after `\u`, and a possible low-surrogate partner. -/
def parseUEscapeTail : List Char → Option (List Char × List Char)
  | h1 :: h2 :: h3 :: h4 :: t3 =>
      (match hex4? h1 h2 h3 h4 with
       | none => none
       | some v =>
           if 0xd800 ≤ v ∧ v ≤ 0xdbff then parseLowSurrogate v t3
           else if 0xdc00 ≤ v ∧ v ≤ 0xdfff then none
           else (parseStringBody t3).map (fun p => (Char.ofNat v :: p.1, p.2)))
  | _ => none

/-- The `\uXXXX` low surrogate following a high surrogate `v`. -/
def parseLowSurrogate (v : Nat) : List Char → Option (List Char × List Char)
  | b1 :: u1 :: g1 :: g2 :: g3 :: g4 :: t4 =>
      if b1.toNat = 92 ∧ u1 = 'u' then
        (match hex4? g1 g2 g3 g4 with
         | none => none
         | some w =>
             if 0xdc00 ≤ w ∧ w ≤ 0xdfff then
               (parseStringBody t4).map (fun p =>
                 (Char.ofNat (0x10000 + (v - 0xd800) * 1024 + (w - 0xdc00)) :: p.1, p.2))
             else none)
      else none
  | _ => none

end

/-- Numeric value of a digit string (most significant first). -/
def digitsToNat (l : List Char) : Nat :=
  l.foldl (fun a c => a * 10 + (c.toNat - 48)) 0

/-- Scan an unsigned integer token. -/
def parseNatTok (s : List Char) : Option (Nat × List Char) :=
  let digits := s.takeWhile isDigitChar
  if digits = [] then none
  else some (digitsToNat digits, s.dropWhile isDigitChar)

/-- Scan an optionally signed integer token. -/
def parseIntTok : List Char → Option (Int × List Char)
  | '-' :: t => (parseNatTok t).map (fun p => (-(p.1 : Int), p.2))
  | s => (parseNatTok s).map (fun p => ((p.1 : Int), p.2))

mutual

/-- Parse one JSON value (leading whitespace skipped).  The fuel only bounds
nesting; `jsize v` units always suffice. -/
def parseValue : Nat → List Char → Option (Json × List Char)
  | 0, _ => none
  | fuel + 1, input =>
      match skipJsonWs input with
      | [] => none
      | c :: r =>
          if c = 'n' then
            if r.take 3 = ['u', 'l', 'l'] then some (.null, r.drop 3) else none
          else if c = 't' then
            if r.take 3 = ['r', 'u', 'e'] then some (.bool true, r.drop 3) else none
          else if c = 'f' then
            if r.take 4 = ['a', 'l', 's', 'e'] then some (.bool false, r.drop 4)
            else none
          else if c.toNat = 34 then
            (parseStringBody r).map (fun p => (Json.str p.1, p.2))
          else if c = '[' then
            match skipJsonWs r with
            | c2 :: r2 =>
                if c2 = ']' then some (.arr [], r2)
                else (parseElems fuel r).map (fun p => (Json.arr p.1, p.2))
            | [] => none
          else if c = lbraceChar then
            match skipJsonWs r with
            | c2 :: r2 =>
                if c2 = rbraceChar then some (.obj [], r2)
                else (parseMembers fuel r).map (fun p => (Json.obj p.1, p.2))
            | [] => none
          else if c = '-' ∨ isDigitChar c then
            (parseIntTok (c :: r)).map (fun p => (Json.int p.1, p.2))
          else none

/-- Parse the elements of a nonempty array up to and including `]`. -/
def parseElems : Nat → List Char → Option (List Json × List Char)
  | 0, _ => none
  | fuel + 1, input =>
      match parseValue fuel input with
      | none => none
      | some (v, r) =>
          match skipJsonWs r with
          | c2 :: r2 =>
              if c2 = ',' then (parseElems fuel r2).map (fun p => (v :: p.1, p.2))
              else if c2 = ']' then some ([v], r2)
              else none
          | [] => none

/-- Parse the members of a nonempty object up to and including the closing
brace. -/
def parseMembers : Nat → List Char → Option (List (List Char × Json) × List Char)
  | 0, _ => none
  | fuel + 1, input =>
      match skipJsonWs input with
      | c :: r =>
          if c.toNat = 34 then
            match parseStringBody r with
            | none => none
            | some (k, r2) =>
                match skipJsonWs r2 with
                | c3 :: r4 =>
                    if c3 = ':' then
                      match parseValue fuel r4 with
                      | none => none
                      | some (v, r5) =>
                          match skipJsonWs r5 with
                          | c4 :: r7 =>
                              if c4 = ',' then
                                (parseMembers fuel r7).map
                                  (fun p => ((k, v) :: p.1, p.2))
                              else if c4 = rbraceChar then some ([(k, v)], r7)
                              else none
                          | [] => none
                    else none
                | [] => none
          else none
      | [] => none

end

/-- `json.loads`: parse one value and require only whitespace after it. -/
def json_loads (s : List Char) : Option Json :=
  match parseValue (s.length + 1) s with
  | none => none
  | some (v, r) => if skipJsonWs r = [] then some v else none

/-! ## Round-trip lemmas for the JSON model -/

theorem char_toNat_ofNat (n : Nat) (h : n.isValidChar) : (Char.ofNat n).toNat = n := by
  rw [Char.ofNat, dif_pos h]
  simp [Char.ofNatAux, Char.toNat, UInt32.toNat, UInt32.ofNat']

theorem skipJsonWs_cons_of_not_ws {c : Char} (h : isJsonWs c = false) (r : List Char) :
    skipJsonWs (c :: r) = c :: r := by
  simp [skipJsonWs, List.dropWhile, h]

theorem skipJsonWs_space (r : List Char) : skipJsonWs (' ' :: r) = skipJsonWs r := by
  simp [skipJsonWs, List.dropWhile, isJsonWs]

theorem skipJsonWs_newline (r : List Char) : skipJsonWs ('\n' :: r) = skipJsonWs r := by
  simp [skipJsonWs, List.dropWhile, isJsonWs]

theorem skipJsonWs_nspaces (n : Nat) (r : List Char) :
    skipJsonWs (nspaces n ++ r) = skipJsonWs r := by
  induction n with
  | zero => simp [nspaces]
  | succ k ih => simpa [nspaces, List.replicate_succ, skipJsonWs_space] using ih

theorem char_le_iff_toNat (a b : Char) : (a ≤ b) ↔ a.toNat ≤ b.toNat := by
  rw [Char.le_def, UInt32.le_def]
  simp [Char.toNat, UInt32.toNat, BitVec.le_def]

theorem char_eq_iff_toNat (a b : Char) : (a = b) ↔ a.toNat = b.toNat := by
  constructor
  · intro h; rw [h]
  · intro h
    apply Char.ext
    apply UInt32.eq_of_toBitVec_eq
    exact BitVec.eq_of_toNat_eq h

theorem natDecAux_eq_append (n : Nat) : ∀ acc, natDecAux n acc = natDecAux n [] ++ acc := by
  induction n using Nat.strong_induction_on with
  | _ n ih =>
      intro acc
      rw [natDecAux]
      conv_rhs => rw [natDecAux]
      by_cases h : n < 10
      · rw [dif_pos h, dif_pos h]
        simp
      · rw [dif_neg h, dif_neg h]
        have hlt : n / 10 < n := Nat.div_lt_self (by omega) (by omega)
        rw [ih (n / 10) hlt (decDigitChar (n % 10) :: acc),
            ih (n / 10) hlt (decDigitChar (n % 10) :: [])]
        simp

theorem natDec_ne_nil (n : Nat) : natDec n ≠ [] := by
  unfold natDec
  by_cases h : n < 10
  · rw [natDecAux, dif_pos h]; simp
  · rw [natDecAux, dif_neg h, natDecAux_eq_append]
    simp

theorem toNat_decDigitChar {d : Nat} (h : d < 10) : (decDigitChar d).toNat = 48 + d := by
  unfold decDigitChar
  have h0 : '0'.toNat = 48 := rfl
  have h2 : ('0'.toNat + d).isValidChar := by
    rw [h0]
    exact Or.inl (by omega)
  rw [char_toNat_ofNat _ h2, h0]

theorem isDigitChar_iff (c : Char) : isDigitChar c = true ↔ 48 ≤ c.toNat ∧ c.toNat ≤ 57 := by
  unfold isDigitChar
  have h1 : ('0' ≤ c) ↔ 48 ≤ c.toNat := char_le_iff_toNat '0' c
  have h2 : (c ≤ '9') ↔ c.toNat ≤ 57 := char_le_iff_toNat c '9'
  simp [h1, h2]

theorem natDec_all_digits (n : Nat) : ∀ c ∈ natDec n, isDigitChar c = true := by
  induction n using Nat.strong_induction_on with
  | _ n ih =>
      intro c hc
      unfold natDec at hc
      rw [natDecAux] at hc
      by_cases h : n < 10
      · rw [dif_pos h] at hc
        simp at hc
        subst hc
        rw [isDigitChar_iff, toNat_decDigitChar h]
        omega
      · rw [dif_neg h, natDecAux_eq_append] at hc
        rcases List.mem_append.mp hc with h1 | h1
        · exact ih (n / 10) (Nat.div_lt_self (by omega) (by omega)) c h1
        · simp at h1
          subst h1
          rw [isDigitChar_iff, toNat_decDigitChar (Nat.mod_lt n (by omega))]
          have := Nat.mod_lt n (show 0 < 10 by omega)
          omega

theorem digitsToNat_append (l1 l2 : List Char) :
    digitsToNat (l1 ++ l2) =
      l2.foldl (fun a c => a * 10 + (c.toNat - 48)) (digitsToNat l1) := by
  unfold digitsToNat
  rw [List.foldl_append]

theorem digitsToNat_natDec (n : Nat) : digitsToNat (natDec n) = n := by
  induction n using Nat.strong_induction_on with
  | _ n ih =>
      unfold natDec
      rw [natDecAux]
      by_cases h : n < 10
      · rw [dif_pos h]
        simp [digitsToNat, toNat_decDigitChar h]
      · rw [dif_neg h, natDecAux_eq_append]
        have hlt : n / 10 < n := Nat.div_lt_self (by omega) (by omega)
        rw [show natDecAux (n / 10) [] = natDec (n / 10) from rfl, digitsToNat_append,
            ih (n / 10) hlt]
        simp [toNat_decDigitChar (Nat.mod_lt n (show 0 < 10 by omega))]
        omega

/-- Head-character guard needed by the number scanner: the text after a
serialized number must not begin with another digit. -/
def headNotDigit : List Char → Bool
  | [] => true
  | c :: _ => ¬ isDigitChar c

theorem parseNatTok_natDec (n : Nat) (rest : List Char)
    (hrest : headNotDigit rest = true) :
    parseNatTok (natDec n ++ rest) = some (n, rest) := by
  have hall : ∀ c ∈ natDec n, isDigitChar c = true := natDec_all_digits n
  have h1 : (natDec n).takeWhile isDigitChar = natDec n :=
    List.takeWhile_eq_self_iff.mpr hall
  have h1d : (natDec n).dropWhile isDigitChar = [] :=
    List.dropWhile_eq_nil_iff.mpr hall
  have htake : (natDec n ++ rest).takeWhile isDigitChar = natDec n := by
    rw [List.takeWhile_append, if_pos (by rw [h1])]
    have h2 : rest.takeWhile isDigitChar = [] := by
      cases rest with
      | nil => rfl
      | cons c t =>
          unfold headNotDigit at hrest
          simp at hrest
          simp [List.takeWhile, hrest]
    rw [h2, List.append_nil]
  have hdrop : (natDec n ++ rest).dropWhile isDigitChar = rest := by
    rw [List.dropWhile_append, h1d]
    simp only [List.isEmpty_nil, if_true]
    cases rest with
    | nil => rfl
    | cons c t =>
        unfold headNotDigit at hrest
        simp at hrest
        simp [List.dropWhile, hrest]
  unfold parseNatTok
  rw [htake, hdrop, if_neg (by simpa using natDec_ne_nil n), digitsToNat_natDec]

theorem natDec_head_digit (n : Nat) :
    ∃ c t, natDec n = c :: t ∧ isDigitChar c = true := by
  cases h : natDec n with
  | nil => exact absurd h (natDec_ne_nil n)
  | cons c t =>
      refine ⟨c, t, rfl, ?_⟩
      apply natDec_all_digits n
      rw [h]
      simp

theorem parseIntTok_intDec (i : Int) (rest : List Char)
    (hrest : headNotDigit rest = true) :
    parseIntTok (intDec i ++ rest) = some (i, rest) := by
  unfold intDec
  by_cases hi : i < 0
  · rw [if_pos hi]
    show parseIntTok ('-' :: (natDec i.natAbs ++ rest)) = some (i, rest)
    rw [parseIntTok, parseNatTok_natDec _ _ hrest]
    simp only [Option.map_some', Option.some.injEq, Prod.mk.injEq]
    exact ⟨by omega, trivial⟩
  · rw [if_neg hi]
    obtain ⟨c, t, hct, hc⟩ := natDec_head_digit i.natAbs
    have hcne : c ≠ '-' := by
      rw [isDigitChar_iff] at hc
      intro h
      subst h
      have : ('-').toNat = 45 := rfl
      omega
    rw [hct, List.cons_append]
    unfold parseIntTok
    split
    · rename_i t2 heq
      exact absurd (List.cons.injEq .. ▸ heq).1 hcne
    · rw [← List.cons_append, ← hct, parseNatTok_natDec _ _ hrest]
      simp only [Option.map_some', Option.some.injEq, Prod.mk.injEq]
      exact ⟨by omega, trivial⟩

theorem uint32_lt_iff_toNat (a b : UInt32) : a < b ↔ a.toNat < b.toNat := by
  rw [UInt32.lt_def]
  simp [UInt32.toNat, BitVec.lt_def]

theorem char_valid_toNat (c : Char) :
    c.toNat < 55296 ∨ (57343 < c.toNat ∧ c.toNat < 1114112) := by
  rcases c.valid with h | ⟨h1, h2⟩
  · exact Or.inl h
  · exact Or.inr ⟨h1, h2⟩

theorem hexVal?_hexDigitChar (d : Nat) (h : d < 16) :
    hexVal? (hexDigitChar d) = some d := by
  unfold hexDigitChar
  by_cases h10 : d < 10
  · rw [if_pos h10]
    have ht : (decDigitChar d).toNat = 48 + d := toNat_decDigitChar h10
    unfold hexVal?
    rw [if_pos ⟨(char_le_iff_toNat '0' _).mpr
          (by rw [ht, show Char.toNat (Char.ofNat 48) = 48 from rfl]; omega),
        (char_le_iff_toNat _ '9').mpr
          (by rw [ht, show Char.toNat (Char.ofNat 57) = 57 from rfl]; omega)⟩, ht]
    congr 1
    omega
  · rw [if_neg h10]
    have hv : ('a'.toNat + (d - 10)).isValidChar := by
      rw [show 'a'.toNat = 97 from rfl]
      exact Or.inl (by omega)
    have ht : (Char.ofNat ('a'.toNat + (d - 10))).toNat = 97 + (d - 10) := by
      rw [char_toNat_ofNat _ hv, show 'a'.toNat = 97 from rfl]
    unfold hexVal?
    rw [if_neg ?hc1, if_pos ?hc2, ht]
    case hc1 =>
      intro ⟨_, h2⟩
      have := (char_le_iff_toNat _ '9').mp h2
      rw [ht, show Char.toNat (Char.ofNat 57) = 57 from rfl] at this
      omega
    case hc2 =>
      exact ⟨(char_le_iff_toNat 'a' _).mpr
          (by rw [ht, show Char.toNat (Char.ofNat 97) = 97 from rfl]; omega),
        (char_le_iff_toNat _ 'f').mpr
          (by rw [ht, show Char.toNat (Char.ofNat 102) = 102 from rfl]; omega)⟩
    congr 1
    omega

theorem hex4?_uEscape_parts (n : Nat) (h : n < 65536) :
    hex4? (hexDigitChar (n / 4096 % 16)) (hexDigitChar (n / 256 % 16))
      (hexDigitChar (n / 16 % 16)) (hexDigitChar (n % 16)) = some n := by
  unfold hex4?
  rw [hexVal?_hexDigitChar _ (Nat.mod_lt _ (by omega)),
      hexVal?_hexDigitChar _ (Nat.mod_lt _ (by omega)),
      hexVal?_hexDigitChar _ (Nat.mod_lt _ (by omega)),
      hexVal?_hexDigitChar _ (Nat.mod_lt _ (by omega))]
  show some _ = some n
  congr 1
  omega



theorem parseStringBody_escapeChar (c : Char) (r : List Char) :
    parseStringBody (escapeChar c ++ r) =
      (parseStringBody r).map (fun p => (c :: p.1, p.2)) := by
  have hval := char_valid_toNat c
  unfold escapeChar
  by_cases h34 : c.toNat = 34
  · have hc : Char.ofNat 34 = c := by
      rw [char_eq_iff_toNat, char_toNat_ofNat 34 (Or.inl (by omega)), h34]
    rw [if_pos h34, ← hc]
    simp only [List.cons_append, List.nil_append]
    rw [parseStringBody, if_neg (by decide), if_pos (by decide),
        parseEscapeTail, if_pos (by decide)]
  · rw [if_neg h34]
    by_cases h92 : c.toNat = 92
    · have hc : Char.ofNat 92 = c := by
        rw [char_eq_iff_toNat, char_toNat_ofNat 92 (Or.inl (by omega)), h92]
      rw [if_pos h92, ← hc]
      simp only [List.cons_append, List.nil_append]
      rw [parseStringBody, if_neg (by decide), if_pos (by decide),
          parseEscapeTail, if_neg (by decide), if_pos (by decide)]
    · rw [if_neg h92]
      by_cases h10 : c.toNat = 10
      · have hc : '\n' = c := by
          rw [char_eq_iff_toNat, h10]
          rfl
        rw [if_pos h10, ← hc]
        simp only [List.cons_append, List.nil_append]
        rw [parseStringBody, if_neg (by decide), if_pos (by decide),
            parseEscapeTail, if_neg (by decide), if_neg (by decide),
            if_neg (by decide), if_pos (by decide)]
      · rw [if_neg h10]
        by_cases h13 : c.toNat = 13
        · have hc : '\r' = c := by
            rw [char_eq_iff_toNat, h13]
            rfl
          rw [if_pos h13, ← hc]
          simp only [List.cons_append, List.nil_append]
          rw [parseStringBody, if_neg (by decide), if_pos (by decide),
              parseEscapeTail, if_neg (by decide), if_neg (by decide),
              if_neg (by decide), if_neg (by decide), if_pos (by decide)]
        · rw [if_neg h13]
          by_cases h9 : c.toNat = 9
          · have hc : '\t' = c := by
              rw [char_eq_iff_toNat, h9]
              rfl
            rw [if_pos h9, ← hc]
            simp only [List.cons_append, List.nil_append]
            rw [parseStringBody, if_neg (by decide), if_pos (by decide),
                parseEscapeTail, if_neg (by decide), if_neg (by decide),
                if_neg (by decide), if_neg (by decide), if_neg (by decide),
                if_pos (by decide)]
          · rw [if_neg h9]
            by_cases h8 : c.toNat = 8
            · have hc : Char.ofNat 8 = c := by
                rw [char_eq_iff_toNat, char_toNat_ofNat 8 (Or.inl (by omega)), h8]
              rw [if_pos h8, ← hc]
              simp only [List.cons_append, List.nil_append]
              rw [parseStringBody, if_neg (by decide), if_pos (by decide),
                  parseEscapeTail, if_neg (by decide), if_neg (by decide),
                  if_neg (by decide), if_neg (by decide), if_neg (by decide),
                  if_neg (by decide), if_pos (by decide)]
            · rw [if_neg h8]
              by_cases h12 : c.toNat = 12
              · have hc : Char.ofNat 12 = c := by
                  rw [char_eq_iff_toNat, char_toNat_ofNat 12 (Or.inl (by omega)), h12]
                rw [if_pos h12, ← hc]
                simp only [List.cons_append, List.nil_append]
                rw [parseStringBody, if_neg (by decide), if_pos (by decide),
                    parseEscapeTail, if_neg (by decide), if_neg (by decide),
                    if_neg (by decide), if_neg (by decide), if_neg (by decide),
                    if_neg (by decide), if_neg (by decide), if_pos (by decide)]
              · rw [if_neg h12]
                by_cases hprint : 0x20 ≤ c.toNat ∧ c.toNat ≤ 0x7e
                · rw [if_pos hprint]
                  simp only [List.cons_append, List.nil_append]
                  rw [parseStringBody, if_neg h34, if_neg h92, if_neg (by omega)]
                · rw [if_neg hprint]
                  by_cases hbmp : c.toNat < 0x10000
                  · rw [if_pos hbmp]
                    unfold uEscape
                    simp only [List.cons_append, List.nil_append]
                    rw [parseStringBody, if_neg (by decide), if_pos (by decide),
                        parseEscapeTail, if_neg (by decide), if_neg (by decide),
                        if_neg (by decide), if_neg (by decide), if_neg (by decide),
                        if_neg (by decide), if_neg (by decide), if_neg (by decide),
                        if_pos (by decide),
                        parseUEscapeTail, hex4?_uEscape_parts c.toNat (by omega)]
                    dsimp only
                    rw [if_neg (by omega), if_neg (by omega), Char.ofNat_toNat]
                  · rw [if_neg hbmp]
                    unfold uEscape
                    simp only [List.cons_append, List.nil_append, List.append_assoc]
                    have hq : (c.toNat - 65536) / 1024 < 1024 := by omega
                    have hm : (c.toNat - 65536) % 1024 < 1024 := Nat.mod_lt _ (by omega)
                    rw [parseStringBody, if_neg (by decide), if_pos (by decide),
                        parseEscapeTail, if_neg (by decide), if_neg (by decide),
                        if_neg (by decide), if_neg (by decide), if_neg (by decide),
                        if_neg (by decide), if_neg (by decide), if_neg (by decide),
                        if_pos (by decide),
                        parseUEscapeTail, hex4?_uEscape_parts _ (by omega)]
                    dsimp only
                    rw [if_pos (by omega), parseLowSurrogate,
                        if_pos ⟨by decide, by decide⟩,
                        hex4?_uEscape_parts _ (by omega)]
                    dsimp only
                    rw [if_pos (by omega)]
                    have hcode : 65536 + (55296 + (c.toNat - 65536) / 1024 - 55296) * 1024 +
                        (56320 + (c.toNat - 65536) % 1024 - 56320) = c.toNat := by
                      omega
                    rw [hcode, Char.ofNat_toNat]

theorem parseStringBody_encoded (s r : List Char) :
    parseStringBody (s.flatMap escapeChar ++ Char.ofNat 34 :: r) = some (s, r) := by
  induction s with
  | nil =>
      rw [List.flatMap_nil, List.nil_append, parseStringBody, if_pos (by decide)]
  | cons c t ih =>
      rw [List.flatMap_cons, List.append_assoc, parseStringBody_escapeChar, ih]
      rfl

theorem parseValue_encodeString (fuel : Nat) (s r : List Char) :
    parseValue (fuel + 1) (encodeString s ++ r) =
      some (Json.str s, r) := by
  unfold encodeString
  rw [parseValue]
  simp only [List.cons_append, List.append_assoc]
  rw [skipJsonWs_cons_of_not_ws (by decide)]
  dsimp only
  rw [if_neg (by decide), if_neg (by decide), if_neg (by decide),
      if_pos (by decide)]
  simp only [List.nil_append]
  rw [parseStringBody_encoded s r]
  rfl

theorem isJsonWs_eq_false {c : Char} (h32 : c.toNat ≠ 32) (h9 : c.toNat ≠ 9)
    (h10 : c.toNat ≠ 10) (h13 : c.toNat ≠ 13) : isJsonWs c = false := by
  unfold isJsonWs
  apply decide_eq_false
  intro hc
  rcases hc with h1 | h1 | h1 | h1
  · exact h32 (by rw [char_eq_iff_toNat] at h1; exact h1)
  · exact h9 (by rw [char_eq_iff_toNat] at h1; exact h1)
  · exact h10 (by rw [char_eq_iff_toNat] at h1; exact h1)
  · exact h13 (by rw [char_eq_iff_toNat] at h1; exact h1)

theorem json_dumps_val_head (lvl : Nat) (v : Json) :
    ∃ c t, json_dumps_val lvl v = c :: t ∧ isJsonWs c = false ∧ c ≠ ']' := by
  cases v with
  | null => exact ⟨'n', _, rfl, by decide, by decide⟩
  | bool b =>
      cases b
      · exact ⟨'f', _, rfl, by decide, by decide⟩
      · exact ⟨'t', _, rfl, by decide, by decide⟩
  | int n =>
      show ∃ c t, intDec n = c :: t ∧ _
      unfold intDec
      by_cases h : n < 0
      · rw [if_pos h]
        exact ⟨'-', _, rfl, by decide, by decide⟩
      · rw [if_neg h]
        obtain ⟨c, t, hct, hd⟩ := natDec_head_digit n.natAbs
        rw [isDigitChar_iff] at hd
        refine ⟨c, t, hct, ?_, ?_⟩
        · exact isJsonWs_eq_false (by omega) (by omega) (by omega) (by omega)
        · intro hcontra
          rw [char_eq_iff_toNat] at hcontra
          have : (']').toNat = 93 := rfl
          omega
  | str s =>
      exact ⟨Char.ofNat 34, _, rfl, by decide, by decide⟩
  | arr xs =>
      cases xs with
      | nil => exact ⟨'[', _, rfl, by decide, by decide⟩
      | cons x t => exact ⟨'[', _, rfl, by decide, by decide⟩
  | obj ms =>
      cases ms with
      | nil => exact ⟨lbraceChar, _, rfl, by decide, by decide⟩
      | cons m t => exact ⟨lbraceChar, _, rfl, by decide, by decide⟩

mutual

/-- Parser fuel adequate for one value. -/
def jsize : Json → Nat
  | .null => 1
  | .bool _ => 1
  | .int _ => 1
  | .str _ => 1
  | .arr xs => 1 + jsizeL xs
  | .obj ms => 1 + jsizeM ms

/-- Parser fuel adequate for array elements. -/
def jsizeL : List Json → Nat
  | [] => 1
  | x :: xs => 1 + jsize x + jsizeL xs

/-- Parser fuel adequate for object members. -/
def jsizeM : List (List Char × Json) → Nat
  | [] => 1
  | (_, v) :: ms => 1 + jsize v + jsizeM ms

end

theorem skipJsonWs_dumps (lvl : Nat) (v : Json) (rest : List Char) :
    skipJsonWs (json_dumps_val lvl v ++ rest) = json_dumps_val lvl v ++ rest := by
  obtain ⟨c, t, hct, hws, -⟩ := json_dumps_val_head lvl v
  rw [hct, List.cons_append, skipJsonWs_cons_of_not_ws hws]

theorem headNotDigit_items (lvl k2 : Nat) (xs : List Json) (rest : List Char) :
    headNotDigit (json_dumps_items lvl xs ++
      '\n' :: (nspaces k2 ++ ']' :: rest)) = true := by
  cases xs with
  | nil =>
      rw [json_dumps_items, List.nil_append]
      rfl
  | cons y ys =>
      rw [json_dumps_items, List.cons_append]
      rfl

theorem headNotDigit_memitems (lvl k2 : Nat) (ms : List (List Char × Json))
    (rest : List Char) :
    headNotDigit (json_dumps_memitems lvl ms ++
      '\n' :: (nspaces k2 ++ rbraceChar :: rest)) = true := by
  cases ms with
  | nil =>
      rw [json_dumps_memitems, List.nil_append]
      rfl
  | cons m ms2 =>
      rw [json_dumps_memitems, List.cons_append]
      rfl

theorem char_ne_of_toNat_ne {c d : Char} (h : c.toNat ≠ d.toNat) : c ≠ d :=
  fun he => h (by rw [he])

theorem one_le_jsize (v : Json) : 1 ≤ jsize v := by
  cases v <;> rw [jsize] <;> omega

theorem one_le_jsizeL (xs : List Json) : 1 ≤ jsizeL xs := by
  cases xs <;> rw [jsizeL] <;> omega

theorem one_le_jsizeM (ms : List (List Char × Json)) : 1 ≤ jsizeM ms := by
  cases ms with
  | nil => rw [jsizeM]
  | cons m ms2 =>
      obtain ⟨k, v⟩ := m
      rw [jsizeM]
      omega

theorem parse_complete (fuel : Nat) :
    (∀ (lvl : Nat) (v : Json) (input rest : List Char),
       jsize v ≤ fuel → headNotDigit rest = true →
       skipJsonWs input = json_dumps_val lvl v ++ rest →
       parseValue fuel input = some (v, rest))
    ∧ (∀ (lvl k2 : Nat) (x : Json) (xs : List Json) (rest : List Char),
       jsizeL (x :: xs) ≤ fuel →
       parseElems fuel ('\n' :: (nspaces (2 * lvl) ++ json_dumps_val lvl x ++
           json_dumps_items lvl xs ++ '\n' :: (nspaces k2 ++ ']' :: rest)))
         = some (x :: xs, rest))
    ∧ (∀ (lvl k2 : Nat) (m : List Char × Json) (ms : List (List Char × Json))
         (rest : List Char),
       jsizeM (m :: ms) ≤ fuel →
       parseMembers fuel ('\n' :: (nspaces (2 * lvl) ++ json_dumps_member lvl m ++
           json_dumps_memitems lvl ms ++ '\n' :: (nspaces k2 ++ rbraceChar :: rest)))
         = some (m :: ms, rest)) := by
  induction fuel using Nat.strong_induction_on with
  | _ fuel ih =>
      cases fuel with
      | zero =>
          refine ⟨?_, ?_, ?_⟩
          · intro lvl v input rest hsz _ _
            exact absurd hsz (by have := one_le_jsize v; omega)
          · intro lvl k2 x xs rest hsz
            exact absurd hsz (by have := one_le_jsizeL (x :: xs); omega)
          · intro lvl k2 m ms rest hsz
            exact absurd hsz (by have := one_le_jsizeM (m :: ms); omega)
      | succ f =>
          have ihf := ih f (by omega)
          refine ⟨?_, ?_, ?_⟩
          · -- parseValue
            intro lvl v input rest hsz hrd hskip
            rw [parseValue, hskip]
            cases v with
            | null =>
                rw [json_dumps_val]
                rfl
            | bool b =>
                cases b
                · rw [json_dumps_val]
                  rfl
                · rw [json_dumps_val]
                  rfl
            | int n =>
                rw [json_dumps_val]
                have hhead : ∃ c t, intDec n = c :: t ∧
                    (c = '-' ∨ isDigitChar c = true) ∧
                    c.toNat ≠ 110 ∧ c.toNat ≠ 116 ∧ c.toNat ≠ 102 ∧
                    c.toNat ≠ 34 ∧ c.toNat ≠ 91 ∧ c.toNat ≠ 123 := by
                  unfold intDec
                  by_cases hn : n < 0
                  · rw [if_pos hn]
                    exact ⟨'-', _, rfl, Or.inl rfl, by decide, by decide,
                      by decide, by decide, by decide, by decide⟩
                  · rw [if_neg hn]
                    obtain ⟨c, t, hct, hd⟩ := natDec_head_digit n.natAbs
                    rw [isDigitChar_iff] at hd
                    refine ⟨c, t, hct, Or.inr (by rw [isDigitChar_iff]; omega),
                      by omega, by omega, by omega, by omega, by omega, by omega⟩
                obtain ⟨c, t, hct, hdisj, hn110, hn116, hn102, hn34, hn91, hn123⟩ :=
                  hhead
                rw [hct, List.cons_append]
                dsimp only
                rw [if_neg (char_ne_of_toNat_ne (by rw [show Char.toNat 'n' = 110 from rfl]; omega)),
                    if_neg (char_ne_of_toNat_ne (by rw [show Char.toNat 't' = 116 from rfl]; omega)),
                    if_neg (char_ne_of_toNat_ne (by rw [show Char.toNat 'f' = 102 from rfl]; omega)),
                    if_neg hn34,
                    if_neg (char_ne_of_toNat_ne (by rw [show Char.toNat '[' = 91 from rfl]; omega)),
                    if_neg (char_ne_of_toNat_ne (by rw [show Char.toNat lbraceChar = 123 from rfl]; omega)),
                    if_pos (by
                      rcases hdisj with hh | hh
                      · exact Or.inl hh
                      · exact Or.inr hh)]
                rw [← List.cons_append, ← hct, parseIntTok_intDec n rest hrd]
                rfl
            | str s =>
                rw [json_dumps_val]
                unfold encodeString
                simp only [List.cons_append, List.append_assoc]
                rw [if_neg (by decide), if_neg (by decide), if_neg (by decide),
                    if_pos (by decide)]
                simp only [List.nil_append]
                rw [parseStringBody_encoded]
                rfl
            | arr xs =>
                cases xs with
                | nil =>
                    rw [json_dumps_val]
                    rfl
                | cons x tl =>
                    rw [json_dumps_val]
                    simp only [List.cons_append, List.append_assoc, List.nil_append]
                    rw [if_neg (by decide), if_neg (by decide), if_neg (by decide),
                        if_neg (by decide), if_pos (by decide)]
                    have hsk2 : skipJsonWs ('\n' :: (nspaces (2 * (lvl + 1)) ++
                        (json_dumps_val (lvl + 1) x ++ (json_dumps_items (lvl + 1) tl ++
                          '\n' :: (nspaces (2 * lvl) ++ ']' :: rest))))) =
                        json_dumps_val (lvl + 1) x ++ (json_dumps_items (lvl + 1) tl ++
                          '\n' :: (nspaces (2 * lvl) ++ ']' :: rest)) := by
                      rw [skipJsonWs_newline, skipJsonWs_nspaces, skipJsonWs_dumps]
                    rw [hsk2]
                    obtain ⟨c, t, hct, hws, hbr⟩ := json_dumps_val_head (lvl + 1) x
                    split
                    · rename_i c2 r2 heq
                      rw [hct, List.cons_append] at heq
                      have hc2 : c = c2 := (List.cons.injEq .. ▸ heq).1
                      rw [if_neg (by rw [← hc2]; exact hbr)]
                      have hL2 := ihf.2.1 (lvl + 1) (2 * lvl) x tl rest (by
                        rw [jsize] at hsz
                        omega)
                      simp only [List.append_assoc] at hL2
                      rw [hL2]
                      rfl
                    · rename_i heq
                      rw [hct, List.cons_append] at heq
                      cases heq
            | obj ms =>
                cases ms with
                | nil =>
                    rw [json_dumps_val]
                    rfl
                | cons m tl =>
                    obtain ⟨k, mv⟩ := m
                    rw [json_dumps_val]
                    simp only [List.cons_append, List.append_assoc, List.nil_append]
                    rw [if_neg (by decide), if_neg (by decide), if_neg (by decide),
                        if_neg (by decide), if_neg (by decide), if_pos (by decide)]
                    have hsk2 : skipJsonWs ('\n' :: (nspaces (2 * (lvl + 1)) ++
                        (json_dumps_member (lvl + 1) (k, mv) ++
                          (json_dumps_memitems (lvl + 1) tl ++
                          '\n' :: (nspaces (2 * lvl) ++ rbraceChar :: rest))))) =
                        json_dumps_member (lvl + 1) (k, mv) ++
                          (json_dumps_memitems (lvl + 1) tl ++
                          '\n' :: (nspaces (2 * lvl) ++ rbraceChar :: rest)) := by
                      rw [skipJsonWs_newline, skipJsonWs_nspaces, json_dumps_member]
                      unfold encodeString
                      simp only [List.cons_append, List.append_assoc]
                      rw [skipJsonWs_cons_of_not_ws (by decide)]
                    rw [hsk2, json_dumps_member]
                    unfold encodeString
                    simp only [List.cons_append, List.append_assoc]
                    rw [if_neg (by decide)]
                    have hL3 := ihf.2.2 (lvl + 1) (2 * lvl) (k, mv) tl rest (by
                      rw [jsize] at hsz
                      omega)
                    rw [json_dumps_member] at hL3
                    unfold encodeString at hL3
                    simp only [List.cons_append, List.append_assoc] at hL3
                    rw [hL3]
                    rfl
          · -- parseElems
            intro lvl k2 x xs rest hsz
            rw [parseElems]
            have hskipv : skipJsonWs ('\n' :: (nspaces (2 * lvl) ++
                json_dumps_val lvl x ++ json_dumps_items lvl xs ++
                '\n' :: (nspaces k2 ++ ']' :: rest))) =
                json_dumps_val lvl x ++ (json_dumps_items lvl xs ++
                '\n' :: (nspaces k2 ++ ']' :: rest)) := by
              rw [skipJsonWs_newline]
              simp only [List.append_assoc]
              rw [skipJsonWs_nspaces, skipJsonWs_dumps]
            have hv := ihf.1 lvl x ('\n' :: (nspaces (2 * lvl) ++
                json_dumps_val lvl x ++ json_dumps_items lvl xs ++
                '\n' :: (nspaces k2 ++ ']' :: rest)))
              (json_dumps_items lvl xs ++ '\n' :: (nspaces k2 ++ ']' :: rest))
              (by rw [jsizeL] at hsz; omega)
              (headNotDigit_items lvl k2 xs rest)
              (by rw [hskipv])
            rw [hv]
            dsimp only
            cases xs with
            | nil =>
                rw [json_dumps_items, List.nil_append, skipJsonWs_newline,
                    skipJsonWs_nspaces, skipJsonWs_cons_of_not_ws (by decide)]
                dsimp only
                rw [if_neg (by decide), if_pos (by decide)]
            | cons y ys =>
                rw [json_dumps_items]
                simp only [List.cons_append, List.append_assoc]
                rw [skipJsonWs_cons_of_not_ws (by decide)]
                dsimp only
                rw [if_pos (by decide)]
                have hL2 := ihf.2.1 lvl k2 y ys rest (by
                  rw [jsizeL] at hsz
                  omega)
                simp only [List.append_assoc] at hL2
                rw [hL2]
                rfl
          · -- parseMembers
            intro lvl k2 m ms rest hsz
            obtain ⟨k, mv⟩ := m
            rw [parseMembers, json_dumps_member]
            unfold encodeString
            simp only [List.cons_append, List.append_assoc]
            rw [skipJsonWs_newline, skipJsonWs_nspaces,
                skipJsonWs_cons_of_not_ws (by decide)]
            dsimp only
            rw [if_pos (by decide)]
            simp only [List.nil_append]
            rw [parseStringBody_encoded]
            dsimp only
            rw [skipJsonWs_cons_of_not_ws (by decide)]
            dsimp only
            rw [if_pos rfl]
            have hv := ihf.1 lvl mv (' ' :: (json_dumps_val lvl mv ++
                (json_dumps_memitems lvl ms ++
                  '\n' :: (nspaces k2 ++ rbraceChar :: rest))))
              (json_dumps_memitems lvl ms ++
                '\n' :: (nspaces k2 ++ rbraceChar :: rest))
              (by
                obtain ⟨kk, vv⟩ := (⟨k, mv⟩ : List Char × Json)
                rw [jsizeM] at hsz
                omega)
              (headNotDigit_memitems lvl k2 ms rest)
              (by rw [skipJsonWs_space, skipJsonWs_dumps])
            rw [hv]
            dsimp only
            cases ms with
            | nil =>
                rw [json_dumps_memitems, List.nil_append, skipJsonWs_newline,
                    skipJsonWs_nspaces, skipJsonWs_cons_of_not_ws (by decide)]
                dsimp only
                rw [if_neg (by decide), if_pos rfl]
            | cons m2 ms2 =>
                rw [json_dumps_memitems]
                simp only [List.cons_append, List.append_assoc]
                rw [skipJsonWs_cons_of_not_ws (by decide)]
                dsimp only
                rw [if_pos (by decide)]
                have hL3 := ihf.2.2 lvl k2 m2 ms2 rest (by
                  obtain ⟨kk, vv⟩ := m2
                  rw [jsizeM, jsizeM] at hsz
                  rw [jsizeM]
                  omega)
                simp only [List.append_assoc] at hL3
                rw [hL3]
                rfl

theorem one_le_intDec_length (i : Int) : 1 ≤ (intDec i).length := by
  unfold intDec
  by_cases h : i < 0
  · rw [if_pos h]
    simp
  · rw [if_neg h]
    obtain ⟨c, t, hct, -⟩ := natDec_head_digit i.natAbs
    rw [hct]
    simp

theorem jsize_le_len (n : Nat) :
    (∀ (v : Json) (lvl : Nat), jsize v ≤ n →
       jsize v ≤ (json_dumps_val lvl v).length)
    ∧ (∀ (xs : List Json) (lvl : Nat), jsizeL xs ≤ n →
       jsizeL xs ≤ (json_dumps_items lvl xs).length + 1)
    ∧ (∀ (ms : List (List Char × Json)) (lvl : Nat), jsizeM ms ≤ n →
       jsizeM ms ≤ (json_dumps_memitems lvl ms).length + 1) := by
  induction n using Nat.strong_induction_on with
  | _ n ih =>
      refine ⟨?_, ?_, ?_⟩
      · intro v lvl hn
        cases v with
        | null => rw [jsize, json_dumps_val]; simp
        | bool b =>
            cases b
            · rw [jsize, json_dumps_val]; simp
            · rw [jsize, json_dumps_val]; simp
        | int i =>
            rw [jsize, json_dumps_val]
            exact one_le_intDec_length i
        | str s =>
            rw [jsize, json_dumps_val]
            unfold encodeString
            simp
        | arr xs =>
            cases xs with
            | nil => rw [jsize, jsizeL, json_dumps_val]; simp
            | cons x tl =>
                rw [jsize] at hn ⊢
                rw [jsizeL] at hn ⊢
                rw [json_dumps_val]
                have h1 := one_le_jsize x
                have h2 := one_le_jsizeL tl
                have ihx := (ih (n - 1) (by omega)).1 x (lvl + 1) (by omega)
                have ihtl := (ih (n - 1) (by omega)).2.1 tl (lvl + 1) (by omega)
                simp only [List.length_cons, List.length_append, List.length_replicate,
                  nspaces]
                omega
        | obj ms =>
            cases ms with
            | nil => rw [jsize, jsizeM, json_dumps_val]; simp
            | cons m tl =>
                obtain ⟨k, mv⟩ := m
                rw [jsize] at hn ⊢
                rw [jsizeM] at hn ⊢
                rw [json_dumps_val]
                have h1 := one_le_jsize mv
                have h2 := one_le_jsizeM tl
                have ihx := (ih (n - 1) (by omega)).1 mv (lvl + 1) (by omega)
                have ihtl := (ih (n - 1) (by omega)).2.2 tl (lvl + 1) (by omega)
                rw [json_dumps_member]
                simp only [List.length_cons, List.length_append, List.length_replicate,
                  nspaces]
                omega
      · intro xs lvl hn
        cases xs with
        | nil => rw [jsizeL, json_dumps_items]; simp
        | cons x tl =>
            rw [jsizeL] at hn ⊢
            rw [json_dumps_items]
            have h1 := one_le_jsize x
            have h2 := one_le_jsizeL tl
            have ihx := (ih (n - 1) (by omega)).1 x lvl (by omega)
            have ihtl := (ih (n - 1) (by omega)).2.1 tl lvl (by omega)
            simp only [List.length_cons, List.length_append, List.length_replicate,
              nspaces]
            omega
      · intro ms lvl hn
        cases ms with
        | nil => rw [jsizeM, json_dumps_memitems]; simp
        | cons m tl =>
            obtain ⟨k, mv⟩ := m
            rw [jsizeM] at hn ⊢
            rw [json_dumps_memitems, json_dumps_member]
            have h1 := one_le_jsize mv
            have h2 := one_le_jsizeM tl
            have ihx := (ih (n - 1) (by omega)).1 mv lvl (by omega)
            have ihtl := (ih (n - 1) (by omega)).2.2 tl lvl (by omega)
            simp only [List.length_cons, List.length_append, List.length_replicate,
              nspaces]
            omega

theorem json_loads_dumps (v : Json) : json_loads (json_dumps v) = some v := by
  unfold json_loads json_dumps
  have hfuel : jsize v ≤ (json_dumps_val 0 v).length + 1 := by
    have := (jsize_le_len (jsize v)).1 v 0 (le_refl _)
    omega
  have hself : skipJsonWs (json_dumps_val 0 v) = json_dumps_val 0 v := by
    have h2 := skipJsonWs_dumps 0 v []
    rwa [List.append_nil] at h2
  have h := (parse_complete ((json_dumps_val 0 v).length + 1)).1 0 v
    (json_dumps_val 0 v) [] hfuel rfl
    (by rw [hself, List.append_nil])
  rw [h]
  rfl

/-- A `ContextStack` as relevant to JSON export: `blocks` is the Python
`List[Dict[str, Any]]`, each dict an association list of string keys to
JSON-representable values; `created_at_iso` stands for
`stack.created_at.isoformat()`. -/
structure ContextStackRec where
  name : List Char
  description : Option (List Char)
  blocks : List (List (List Char × Json))
  created_at_iso : List Char
  use_count : Nat
  is_template : Bool

/-- Python `b.get(key, dflt)` on a dict modelled as an association list. -/
def py_dict_get (b : List (List Char × Json)) (key : List Char) (dflt : Json) : Json :=
  match b.find? (fun kv => decide (kv.1 = key)) with
  | some kv => kv.2
  | none => dflt

/-- The `data` dict built by `ContextStackService._export_as_json`
(context_stack.py): keys in Python insertion order; `blocks` is the stack's
blocks verbatim when `include_sources`, else stripped to their `content`. -/
def export_as_json_data (stack : ContextStackRec) (include_sources : Bool) : Json :=
  Json.obj
    [("name".data, Json.str stack.name),
     ("description".data,
        match stack.description with
        | some d => Json.str d
        | none => Json.null),
     ("blocks".data,
        if include_sources then Json.arr (stack.blocks.map Json.obj)
        else Json.arr (stack.blocks.map (fun b =>
          Json.obj [("content".data, py_dict_get b "content".data (Json.str []))]))),
     ("metadata".data, Json.obj
        [("created_at".data, Json.str stack.created_at_iso),
         ("use_count".data, Json.int (Int.ofNat stack.use_count)),
         ("is_template".data, Json.bool stack.is_template)])]

/-- `_export_as_json` itself: `json.dumps(data, indent=2)`. -/
def export_as_json (stack : ContextStackRec) (include_sources : Bool) : List Char :=
  json_dumps (export_as_json_data stack include_sources)

/-- Field lookup in a parsed JSON object. -/
def json_get_field (v : Json) (key : List Char) : Option Json :=
  match v with
  | Json.obj ms =>
      match ms.find? (fun kv => decide (kv.1 = key)) with
      | some kv => some kv.2
      | none => none
  | _ => none

/-- C7: exporting a `ContextStack` to json format with sources included and
parsing the exported string back (`json_loads`) recovers exactly the exported
data value, and its `"blocks"` field is exactly the stack's original blocks
sequence, in the same order with the same content in each block. -/
theorem C7_export_json_roundtrip (stack : ContextStackRec) :
    json_loads (export_as_json stack true) = some (export_as_json_data stack true)
    ∧ json_get_field (export_as_json_data stack true) "blocks".data
        = some (Json.arr (stack.blocks.map Json.obj)) := by
  refine ⟨json_loads_dumps _, ?_⟩
  rfl

/-! ## C4 support: slug length bounds -/

theorem natDecAux_length_le (e : Nat) : ∀ (n : Nat) (acc : List Char),
    n < 10 ^ e → (natDecAux n acc).length ≤ e + 1 + acc.length := by
  induction e with
  | zero =>
      intro n acc hn
      have hn0 : n = 0 := by simpa using hn
      subst hn0
      rw [natDecAux, dif_pos (by omega)]
      simp
      omega
  | succ e ih =>
      intro n acc hn
      rw [natDecAux]
      by_cases h : n < 10
      · rw [dif_pos h]
        simp
        omega
      · rw [dif_neg h]
        have hd : n / 10 < 10 ^ e := Nat.div_lt_of_lt_mul (by rw [pow_succ] at hn; omega)
        have hih := ih (n / 10) (decDigitChar (n % 10) :: acc) hd
        simp only [List.length_cons] at hih
        omega

theorem natDec_length_le {n e : Nat} (h : n < 10 ^ e) : (natDec n).length ≤ e + 1 := by
  unfold natDec
  simpa using natDecAux_length_le e n [] h

theorem py_strip_char_length_le (ch : Char) (s : List Char) :
    (py_strip_char ch s).length ≤ s.length := by
  unfold py_strip_char
  rw [List.length_reverse]
  calc ((s.dropWhile (· = ch)).reverse.dropWhile (· = ch)).length
      ≤ (s.dropWhile (· = ch)).reverse.length := dropWhile_length_le _ _
    _ = (s.dropWhile (· = ch)).length := List.length_reverse _
    _ ≤ s.length := dropWhile_length_le _ _

theorem py_strip_char_take_le (ch : Char) (s : List Char) (n : Nat) :
    (py_strip_char ch (s.take n)).length ≤ n := by
  calc (py_strip_char ch (s.take n)).length
      ≤ (s.take n).length := py_strip_char_length_le ch _
    _ ≤ n := by rw [List.length_take]; omega

theorem ensure_unique_go_length (existing : List (List Char)) (base : List Char) :
    ∀ (fuel counter : Nat) (slug : List Char),
      slug.length ≤ 100 → counter + fuel < 10 ^ 98 →
      (ensure_unique_go existing base fuel slug counter).length ≤ 100 := by
  intro fuel
  induction fuel with
  | zero =>
      intro counter slug h _
      rw [ensure_unique_go]
      exact h
  | succ f ih =>
      intro counter slug h hbound
      rw [ensure_unique_go]
      by_cases hin : slug ∈ existing
      · rw [if_pos hin]
        dsimp only
        have hnd : (natDec counter).length ≤ 99 :=
          le_trans (natDec_length_le (show counter < 10 ^ 98 by omega)) (by omega)
        apply ih
        · by_cases hlong : 100 < base.length + ('-' :: natDec counter).length
          · rw [if_pos hlong]
            unfold py_slice_to
            rw [if_pos (by simp only [List.length_cons]; omega)]
            simp only [List.length_append, List.length_take, List.length_cons]
            omega
          · rw [if_neg hlong]
            simp only [List.length_cons] at hlong
            simp only [List.length_append, List.length_cons]
            omega
        · omega
      · rw [if_neg hin]
        exact h

theorem ensure_unique_slug_length (existing : List (List Char)) (base : List Char)
    (hb : base.length ≤ 100) (hcard : existing.length + 3 < 10 ^ 98) :
    (ensure_unique_slug existing base).length ≤ 100 := by
  unfold ensure_unique_slug
  exact ensure_unique_go_length existing base (existing.length + 1) 1 base hb (by omega)

theorem slug_final_length (url b s : List Char) (hb : b.length ≤ 80)
    (h : (if b = [] ∨ b.length < 3 then
            Except.ok ("conversion-".data ++ (md5_hexdigest url).take 8)
          else Except.ok b) = (Except.ok s : Except Unit (List Char))) :
    s.length ≤ 80 := by
  by_cases hc : b = [] ∨ b.length < 3
  · rw [if_pos hc] at h
    injection h with h
    subst h
    rw [List.length_append]
    have h1 : ("conversion-".data).length = 11 := rfl
    have h2 : ((md5_hexdigest url).take 8).length ≤ 8 := List.length_take_le 8 _
    omega
  · rw [if_neg hc] at h
    injection h with h
    subst h
    exact hb

theorem generate_slug_fromUrl_length (url s : List Char)
    (h : generate_slug.fromUrl url = Except.ok s) : s.length ≤ 80 := by
  unfold generate_slug.fromUrl at h
  cases hu : urlsplit_exc url with
  | error e =>
      rw [hu] at h
      simp [Bind.bind, Except.bind] at h
  | ok parsed =>
      rw [hu] at h
      simp only [Bind.bind, Except.bind, pure, Except.pure] at h
      injection h with h
      subst h
      exact py_strip_char_take_le '-' _ 80

theorem generate_slug_length (url : List Char) (title : Option (List Char))
    (s : List Char) (h : generate_slug url title = Except.ok s) : s.length ≤ 80 := by
  unfold generate_slug at h
  cases title with
  | none =>
      cases hu : generate_slug.fromUrl url with
      | error e =>
          rw [hu] at h
          simp [Bind.bind, Except.bind] at h
      | ok b =>
          rw [hu] at h
          simp only [Bind.bind, Except.bind, pure, Except.pure] at h
          exact slug_final_length url b s (generate_slug_fromUrl_length url b hu) h
  | some t =>
      dsimp only at h
      by_cases ht : t ≠ [] ∧ 10 < (py_strip t).length
      · rw [if_pos ht] at h
        simp only [Bind.bind, Except.bind, pure, Except.pure] at h
        exact slug_final_length url _ s (py_strip_char_take_le '-' _ 80) h
      · rw [if_neg ht] at h
        cases hu : generate_slug.fromUrl url with
        | error e =>
            rw [hu] at h
            simp [Bind.bind, Except.bind] at h
        | ok b =>
            rw [hu] at h
            simp only [Bind.bind, Except.bind, pure, Except.pure] at h
            exact slug_final_length url b s (generate_slug_fromUrl_length url b hu) h

/-- C4: slug generation (`generate_slug`) is a deterministic function of the
(title, url) input pair — identical inputs always produce the identical base
slug — and for every persisted slug set (of any size a database can reach,
here bounded by 10^98 − 3) and every base slug produced by slug generation,
`ensure_unique_slug` returns a slug of at most 100 characters, even when many
prior conversions share the same base slug. -/
theorem C4_slug_deterministic_and_bounded :
    (∀ (url1 url2 : List Char) (t1 t2 : Option (List Char)),
       url1 = url2 → t1 = t2 → generate_slug url1 t1 = generate_slug url2 t2)
    ∧ (∀ (url base : List Char) (title : Option (List Char))
         (existing : List (List Char)),
       generate_slug url title = Except.ok base →
       existing.length + 3 < 10 ^ 98 →
       (ensure_unique_slug existing base).length ≤ 100) := by
  constructor
  · intro url1 url2 t1 t2 hu ht
    rw [hu, ht]
  · intro url base title existing hgen hcard
    exact ensure_unique_slug_length existing base
      (le_trans (generate_slug_length url title base hgen) (by omega)) hcard

theorem C4_slug_deterministic_and_bounded_witness :
    (ensure_unique_slug ["a-page".data, "a-page-1".data] "a-page".data).length ≤ 100 :=
  C4_slug_deterministic_and_bounded.2 "http://example.com/a-page".data "a-page".data
    none ["a-page".data, "a-page-1".data] (by rfl) (by norm_num)

/-- C1: for every account on a tier with a finite daily limit N, the rate
limiter's check computes `current_usage` as the number of that account's
conversions created in the last 24 hours (which, since rows are never created
in the future, is exactly the count of conversions in the window
`[now − 24h, now]`), returns `allowed = (current_usage < N)` and
`remaining = max(0, N − current_usage)`; in particular with usage exactly N
the next check returns `allowed = false`, and at any later time at which the
24h window has rolled past enough old conversions that usage is below N,
`allowed` is true again with no reset action (the check reads only the
rows). -/
theorem C1_rate_limit_finite (freeDaily : Int) (db : List RLConversion)
    (u : RLUser) (now : Nat) (N : Int)
    (hN : get_daily_limit freeDaily u.tier = some N) :
    (check_rate_limit freeDaily db (some u) now).current_usage
        = usage_query db u.id now
    ∧ (check_rate_limit freeDaily db (some u) now).allowed
        = decide ((usage_query db u.id now : Int) < N)
    ∧ (check_rate_limit freeDaily db (some u) now).remaining
        = some (max 0 (N - (usage_query db u.id now : Int)))
    ∧ ((∀ c ∈ db, c.created_at ≤ now) →
        usage_query db u.id now = conversions_in_window db u.id now)
    ∧ ((usage_query db u.id now : Int) = N →
        (check_rate_limit freeDaily db (some u) now).allowed = false)
    ∧ (∀ now2 : Nat, (usage_query db u.id now2 : Int) < N →
        (check_rate_limit freeDaily db (some u) now2).allowed = true) := by
  have hmain : ∀ now3 : Nat, check_rate_limit freeDaily db (some u) now3
      = { allowed := decide ((usage_query db u.id now3 : Int) < N),
          tier := u.tier, daily_limit := some N,
          remaining := some (max 0 (N - (usage_query db u.id now3 : Int))),
          reset_time := some (now3 / 86400 * 86400 + 86400),
          current_usage := usage_query db u.id now3 } := by
    intro now3
    unfold check_rate_limit
    dsimp only
    rw [hN]
  refine ⟨by rw [hmain], by rw [hmain], by rw [hmain], ?_, ?_, ?_⟩
  · intro hall
    unfold usage_query conversions_in_window
    congr 1
    apply List.filter_congr
    intro c hc
    have hcn := hall c hc
    simp [hcn]
  · intro husage
    rw [hmain, husage]
    simp
  · intro now2 h2
    rw [hmain]
    exact decide_eq_true h2

theorem C1_rate_limit_finite_witness :
    (check_rate_limit 5 [⟨some 1, 1000⟩] (some ⟨1, "free"⟩) 180000).allowed = true :=
  (C1_rate_limit_finite 5 [⟨some 1, 1000⟩] ⟨1, "free"⟩ 180000 5
      (by rfl)).2.2.2.2.2 180000 (by decide)

/-- C5: for every tier whose daily limit is None (unlimited), the rate
limiter's check always returns `allowed = true` with `daily_limit = None`,
`remaining = None`, `current_usage = 0` and no reset time, regardless of the
conversion rows and the time — in particular the result never depends on the
database, so the usage counter is never consulted. -/
theorem C5_rate_limit_unlimited (freeDaily : Int) (db : List RLConversion)
    (u : RLUser) (now : Nat)
    (hN : get_daily_limit freeDaily u.tier = none) :
    check_rate_limit freeDaily db (some u) now
      = { allowed := true, tier := u.tier, daily_limit := none,
          remaining := none, reset_time := none, current_usage := 0 }
    ∧ ∀ (db2 : List RLConversion) (now2 : Nat),
        check_rate_limit freeDaily db2 (some u) now2
          = check_rate_limit freeDaily db (some u) now := by
  have hmain : ∀ (db3 : List RLConversion) (now3 : Nat),
      check_rate_limit freeDaily db3 (some u) now3
        = { allowed := true, tier := u.tier, daily_limit := none,
            remaining := none, reset_time := none, current_usage := 0 } := by
    intro db3 now3
    unfold check_rate_limit
    dsimp only
    rw [hN]
  exact ⟨hmain db now, fun db2 now2 => by rw [hmain, hmain]⟩

theorem C5_rate_limit_unlimited_witness :
    check_rate_limit 5 [⟨some 1, 1000⟩, ⟨some 1, 1100⟩, ⟨some 1, 1200⟩,
        ⟨some 1, 1300⟩, ⟨some 1, 1400⟩, ⟨some 1, 1500⟩] (some ⟨1, "pro"⟩) 2000
      = { allowed := true, tier := "pro", daily_limit := none,
          remaining := none, reset_time := none, current_usage := 0 } :=
  (C5_rate_limit_unlimited 5 [⟨some 1, 1000⟩, ⟨some 1, 1100⟩, ⟨some 1, 1200⟩,
      ⟨some 1, 1300⟩, ⟨some 1, 1400⟩, ⟨some 1, 1500⟩] ⟨1, "pro"⟩ 2000 (by rfl)).1

theorem C2_degenerate_counterexample :
    (identify_bot (some [])).is_bot = false
    ∧ should_serve_markdown (some []) = false
    ∧ (identify_bot (some "-".data)).is_bot = false
    ∧ (identify_bot (some "null".data)).is_bot = false
    ∧ (identify_bot (some "none".data)).is_bot = false := by decide

/-- C2 (amended): for every degenerate identity — absent, `""`, `"-"`,
`"null"`, `"none"` — the classifier `identify_bot` reports `is_bot = false`
and the content-format decision `should_serve_markdown` is false (the
rendered form is served, not plain text).  Only the standalone boolean
helper `is_bot` treats the short literals `"-"`, `"null"`, `"none"` as
bot-like (via its under-10-characters heuristic), and even it returns false
for an absent or empty identity. -/
theorem C2_degenerate_identities_not_bots :
    (∀ ua ∈ ([none, some [], some "-".data, some "null".data,
         some "none".data] : List (Option (List Char))),
       (identify_bot ua).is_bot = false ∧ should_serve_markdown ua = false)
    ∧ is_bot_check none = false
    ∧ is_bot_check (some []) = false
    ∧ is_bot_check (some "-".data) = true
    ∧ is_bot_check (some "null".data) = true
    ∧ is_bot_check (some "none".data) = true := by decide

theorem C2_degenerate_identities_not_bots_witness :
    (identify_bot (some "-".data)).is_bot = false
    ∧ should_serve_markdown (some "-".data) = false :=
  C2_degenerate_identities_not_bots.1 (some "-".data) (by decide)

theorem C3_facebook_counterexample :
    (identify_bot (some "facebookexternalhit/1.1".data)).bot_type
        ≠ some "social_media".data
    ∧ should_serve_markdown (some "facebookexternalhit/1.1".data) = true := by
  decide

/-- C3 (amended): the identity string "facebookexternalhit/1.1" is classified
as a bot, but under the name `Meta-ExternalAgent` (that `KNOWN_BOTS` entry
lists `facebookexternalhit` and precedes any social-media match), hence with
category `ai_crawler`, and `should_serve_markdown` is therefore true — the
plain-text form IS served.  The intended asymmetry does hold in general: any
identity for which plain text is served has its category among the four
plain-text categories, and `social_media` / `security_scanner` are not among
them. -/
theorem C3_facebook_is_meta_external_ai_crawler :
    (identify_bot (some "facebookexternalhit/1.1".data)).is_bot = true
    ∧ (identify_bot (some "facebookexternalhit/1.1".data)).bot_name
        = some "Meta-ExternalAgent".data
    ∧ (identify_bot (some "facebookexternalhit/1.1".data)).bot_type
        = some "ai_crawler".data
    ∧ should_serve_markdown (some "facebookexternalhit/1.1".data) = true
    ∧ "social_media".data ∉ markdown_bot_types
    ∧ "security_scanner".data ∉ markdown_bot_types
    ∧ (∀ ua : Option (List Char), should_serve_markdown ua = true →
        ∃ t, (identify_bot ua).bot_type = some t ∧ t ∈ markdown_bot_types) := by
  refine ⟨by decide, by decide, by decide, by decide, by decide, by decide, ?_⟩
  intro ua h
  unfold should_serve_markdown at h
  by_cases hb : (identify_bot ua).is_bot = true
  · rw [if_neg (by simp [hb])] at h
    cases hbt : (identify_bot ua).bot_type with
    | none => rw [hbt] at h; exact absurd h (by simp)
    | some t =>
        rw [hbt] at h
        exact ⟨t, rfl, of_decide_eq_true h⟩
  · rw [if_pos (by simpa using hb)] at h
    exact absurd h (by simp)

theorem C3_facebook_is_meta_external_ai_crawler_witness :
    ∃ t, (identify_bot (some "Googlebot/2.1".data)).bot_type = some t
       ∧ t ∈ markdown_bot_types :=
  C3_facebook_is_meta_external_ai_crawler.2.2.2.2.2.2
    (some "Googlebot/2.1".data) (by decide)

/-- C6: converting a URL whose scheme is not http or https (if it parses at
all) is rejected by the request schema's `HttpUrl` validation: the endpoint
returns a validation error, and its result is independent of the extraction
and tokenizing collaborators — no external extraction call is attempted. -/
theorem C6_bad_scheme_rejected_before_extraction
    (extract : List Char → Except Unit (List Char))
    (tokenizer : List Char → Option Nat) (jina_base url : List Char)
    (h : ∀ parsed, urlsplit_exc url = Except.ok parsed →
         parsed.scheme ∉ ALLOWED_SCHEMES) :
    convert_endpoint extract tokenizer jina_base url
      = Except.error ConvertError.validation
    ∧ ∀ (extract2 : List Char → Except Unit (List Char))
        (tokenizer2 : List Char → Option Nat)
        (jina_base2 : List Char),
        convert_endpoint extract2 tokenizer2 jina_base2 url
          = Except.error ConvertError.validation := by
  have hacc : httpUrl_accepts url = false := by
    unfold httpUrl_accepts
    cases hu : urlsplit_exc url with
    | error e => rfl
    | ok parsed =>
        have hs := h parsed hu
        simp [hs]
  refine ⟨?_, fun extract2 tokenizer2 jina_base2 => ?_⟩ <;>
    simp [convert_endpoint, hacc]

theorem C6_bad_scheme_rejected_before_extraction_witness :
    convert_endpoint (fun s => Except.ok s) (fun _ => none)
        "https://r.jina.ai".data "ftp://example.com/file.txt".data
      = Except.error ConvertError.validation :=
  (C6_bad_scheme_rejected_before_extraction (fun s => Except.ok s) (fun _ => none)
    "https://r.jina.ai".data "ftp://example.com/file.txt".data
    (fun parsed hp => by
      rw [show urlsplit_exc "ftp://example.com/file.txt".data
            = Except.ok ⟨"ftp".data, "example.com".data, "/file.txt".data, [], []⟩
          from rfl] at hp
      injection hp with hp
      subst hp
      decide)).1

/-! ## C8 support: webhook replay idempotence -/

theorem updateFirst_idem (p : PayUser → Bool) (f : PayUser → PayUser)
    (hp : ∀ u, p (f u) = p u) (hf : ∀ u, f (f u) = f u) :
    ∀ db, updateFirst p f (updateFirst p f db) = updateFirst p f db := by
  intro db
  induction db with
  | nil => rfl
  | cons u rest ih =>
      by_cases h : p u = true
      · rw [updateFirst, if_pos h, updateFirst, if_pos (by rw [hp]; exact h), hf]
      · rw [updateFirst, if_neg h, updateFirst, if_neg h, ih]

theorem find_updateFirst (p : PayUser → Bool) (f : PayUser → PayUser)
    (hp : ∀ u, p (f u) = p u) :
    ∀ db : List PayUser, (updateFirst p f db).find? p = (db.find? p).map f := by
  intro db
  induction db with
  | nil => rfl
  | cons u rest ih =>
      by_cases h : p u = true
      · rw [updateFirst, if_pos h, List.find?_cons_of_pos _ (by rw [hp]; exact h),
          List.find?_cons_of_pos _ h, Option.map_some']
      · rw [updateFirst, if_neg h,
          List.find?_cons_of_neg _ (by simpa using h),
          List.find?_cons_of_neg _ (by simpa using h), ih]

theorem checkout_completed_state_idem (db : List PayUser) (d : WebhookEventData) :
    ∀ db2, handle_checkout_completed db d = .ok db2 →
      handle_checkout_completed db2 d = .ok db2 := by
  intro db2 h
  obtain ⟨did, dcust, duid, dtier, dcpe, dca⟩ := d
  unfold handle_checkout_completed at h ⊢
  cases duid with
  | none =>
      injection h with h
      subst h
      rfl
  | some uid =>
      cases dtier with
      | none =>
          injection h with h
          subst h
          rfl
      | some tier =>
          dsimp only at h ⊢
          by_cases he : uid = "" ∨ tier = ""
          · rw [if_pos he] at h ⊢
          · rw [if_neg he] at h ⊢
            injection h with h
            subst h
            rw [updateFirst_idem (fun u => decide (u.id = uid))
              (fun u => { u with tier := tier, polar_customer_id := dcust })
              (fun u => rfl) (fun u => rfl)]

theorem created_state_idem (parseIso : String → Option String)
    (db : List PayUser) (d : WebhookEventData) :
    ∀ db2, handle_subscription_created parseIso db d = .ok db2 →
      handle_subscription_created parseIso db2 d = .ok db2 := by
  intro db2 h
  unfold handle_subscription_created at h ⊢
  cases hf0 : db.find? (fun u => u.polar_customer_id = d.customer_id) with
  | none =>
      rw [hf0] at h
      injection h with h
      subst h
      rw [hf0]
  | some u0 =>
      rw [hf0] at h
      cases hiso : parseIso (d.current_period_end.getD "") with
      | none =>
          rw [hiso] at h
          injection h
      | some ends =>
          rw [hiso] at h
          injection h with h
          subst h
          rw [find_updateFirst (fun u => decide (u.polar_customer_id = d.customer_id))
              (fun u => { u with polar_subscription_id := d.id,
                                 subscription_ends_at := some ends })
              (fun u => rfl), hf0, Option.map_some']
          dsimp only
          rw [updateFirst_idem (fun u => decide (u.polar_customer_id = d.customer_id))
              (fun u => { u with polar_subscription_id := d.id,
                                 subscription_ends_at := some ends })
              (fun u => rfl) (fun u => rfl)]

theorem cancelled_state_idem (parseIso : String → Option String)
    (db : List PayUser) (d : WebhookEventData) :
    ∀ db2, handle_subscription_cancelled parseIso db d = .ok db2 →
      handle_subscription_cancelled parseIso db2 d = .ok db2 := by
  intro db2 h
  unfold handle_subscription_cancelled at h ⊢
  cases hf0 : db.find? (fun u => u.polar_subscription_id = d.id) with
  | none =>
      rw [hf0] at h
      injection h with h
      subst h
      rw [hf0]
  | some u0 =>
      rw [hf0] at h
      cases hiso : parseIso (d.cancel_at.getD "") with
      | none =>
          rw [hiso] at h
          injection h
      | some ends =>
          rw [hiso] at h
          injection h with h
          subst h
          rw [find_updateFirst (fun u => decide (u.polar_subscription_id = d.id))
              (fun u => { u with subscription_ends_at := some ends })
              (fun u => rfl), hf0, Option.map_some']
          dsimp only
          rw [updateFirst_idem (fun u => decide (u.polar_subscription_id = d.id))
              (fun u => { u with subscription_ends_at := some ends })
              (fun u => rfl) (fun u => rfl)]

theorem updated_state_idem (parseIso : String → Option String)
    (db : List PayUser) (d : WebhookEventData) :
    ∀ db2, handle_subscription_updated parseIso db d = .ok db2 →
      handle_subscription_updated parseIso db2 d = .ok db2 := by
  intro db2 h
  unfold handle_subscription_updated at h ⊢
  cases hf0 : db.find? (fun u => u.polar_subscription_id = d.id) with
  | none =>
      rw [hf0] at h
      injection h with h
      subst h
      rw [hf0]
  | some u0 =>
      rw [hf0] at h
      cases hiso : parseIso (d.current_period_end.getD "") with
      | none =>
          rw [hiso] at h
          injection h
      | some ends =>
          rw [hiso] at h
          injection h with h
          subst h
          rw [find_updateFirst (fun u => decide (u.polar_subscription_id = d.id))
              (fun u => { u with subscription_ends_at := some ends })
              (fun u => rfl), hf0, Option.map_some']
          dsimp only
          rw [updateFirst_idem (fun u => decide (u.polar_subscription_id = d.id))
              (fun u => { u with subscription_ends_at := some ends })
              (fun u => rfl) (fun u => rfl)]

theorem handle_webhook_event_idem (parseIso : String → Option String)
    (db : List PayUser) (event_type : String) (d : WebhookEventData) :
    ∀ db2, handle_webhook_event parseIso db event_type d = .ok db2 →
      handle_webhook_event parseIso db2 event_type d = .ok db2 := by
  intro db2 h
  unfold handle_webhook_event at h ⊢
  by_cases h1 : event_type = "checkout.completed"
  · rw [if_pos h1] at h ⊢
    exact checkout_completed_state_idem db d db2 h
  · rw [if_neg h1] at h ⊢
    by_cases h2 : event_type = "subscription.created"
    · rw [if_pos h2] at h ⊢
      exact created_state_idem parseIso db d db2 h
    · rw [if_neg h2] at h ⊢
      by_cases h3 : event_type = "subscription.cancelled"
      · rw [if_pos h3] at h ⊢
        exact cancelled_state_idem parseIso db d db2 h
      · rw [if_neg h3] at h ⊢
        by_cases h4 : event_type = "subscription.updated"
        · rw [if_pos h4] at h ⊢
          exact updated_state_idem parseIso db d db2 h
        · rw [if_neg h4] at h ⊢

/-- C8: applying the same billing webhook event twice (replay) leaves the
account table in the same final state as applying it once — in particular
every account's tier and subscription-end-date after the second application
equal those after the first.  (On a handler error the session is not
committed, so the stored state is unchanged and the replay repeats the same
error.) -/
theorem C8_webhook_replay_idempotent (parseIso : String → Option String)
    (db : List PayUser) (event_type : String) (d : WebhookEventData) :
    webhook_result_state parseIso
        (webhook_result_state parseIso db event_type d) event_type d
      = webhook_result_state parseIso db event_type d := by
  unfold webhook_result_state
  cases hres : handle_webhook_event parseIso db event_type d with
  | error e =>
      dsimp only
      rw [hres]
  | ok db2 =>
      dsimp only
      rw [handle_webhook_event_idem parseIso db event_type d db2 hres]

/-! ## C9 support: `str.replace` versus leading-prefix stripping -/

theorem py_replace_go_no_occ (old new : List Char) :
    ∀ (fuel : Nat) (s : List Char), contains_sub s old = false →
      py_replace_go old new fuel s = s := by
  intro fuel
  induction fuel with
  | zero => intro s _; rfl
  | succ f ih =>
      intro s hno
      cases s with
      | nil => rfl
      | cons c t =>
          unfold contains_sub at hno
          rw [Bool.or_eq_false_iff] at hno
          rw [py_replace_go, if_neg (by simp [hno.1]), ih t hno.2]

theorem isPrefixOf_append_self (l₁ l₂ : List Char) :
    l₁.isPrefixOf (l₁ ++ l₂) = true := by
  induction l₁ with
  | nil => simp [List.isPrefixOf]
  | cons c t ih => simpa [List.isPrefixOf] using ih

theorem py_replace_no_occ (old new s : List Char)
    (h : contains_sub s old = false) : py_replace old new s = s :=
  py_replace_go_no_occ old new (s.length + 1) s h

theorem py_replace_leading (old new rest : List Char) (hold : old ≠ [])
    (hno : contains_sub rest old = false) :
    py_replace old new (old ++ rest) = new ++ rest := by
  obtain ⟨o, otail, rfl⟩ : ∃ o otail, old = o :: otail := by
    cases old with
    | nil => exact absurd rfl hold
    | cons o t => exact ⟨o, t, rfl⟩
  unfold py_replace
  rw [List.cons_append, py_replace_go,
    if_pos ⟨by rw [← List.cons_append]; exact isPrefixOf_append_self _ _, by simp⟩]
  simp only [List.length_cons, List.drop_succ_cons, List.drop_left]
  rw [py_replace_go_no_occ _ _ _ _ hno]

theorem not_isPrefixOf_of_no_occ (s old : List Char)
    (h : contains_sub s old = false) : old.isPrefixOf s = false := by
  cases s with
  | nil => exact h
  | cons c t =>
      unfold contains_sub at h
      rw [Bool.or_eq_false_iff] at h
      exact h.1

theorem C9_domain_counterexample :
    extract_domain "https://www.example.com/a".data = "www.example.com".data
    ∧ spec_domain "https://www.example.com/a".data = some "example.com".data
    ∧ extract_domain "https://www.example.com/a".data ≠ "example.com".data
    ∧ create_conversion_domain "http://sub.www.example.com/".data
        = some "sub.example.com".data
    ∧ spec_domain "http://sub.www.example.com/".data
        = some "sub.www.example.com".data := by decide

/-- C9 (amended): the conversion service's own domain metadata
(`_extract_domain`) is the host component verbatim — no `www.` stripping at
all — while the API row's domain (`create_conversion`) removes every
occurrence of the substring `"www."` from the host.  The latter agrees with
the spec's "leading `www.` stripped" exactly on hosts where `"www."` occurs
at most once, leading: with no occurrence both leave the host unchanged, and
on `"www." ++ rest` (no further occurrence in `rest`) both yield `rest`. -/
theorem C9_domain_derivation (url : List Char) (parsed : UrlParts)
    (hp : urlsplit_exc url = Except.ok parsed) :
    extract_domain url = parsed.netloc
    ∧ (contains_sub parsed.netloc "www.".data = false →
        create_conversion_domain url = some parsed.netloc
        ∧ spec_domain url = some parsed.netloc)
    ∧ (∀ rest, parsed.netloc = "www.".data ++ rest →
        contains_sub rest "www.".data = false →
        create_conversion_domain url = some rest
        ∧ spec_domain url = some rest) := by
  refine ⟨?_, ?_, ?_⟩
  · unfold extract_domain
    rw [hp]
  · intro hno
    constructor
    · unfold create_conversion_domain
      rw [hp]
      dsimp only
      rw [py_replace_no_occ _ _ _ hno]
    · unfold spec_domain
      rw [hp]
      dsimp only
      rw [if_neg (by simp [not_isPrefixOf_of_no_occ _ _ hno])]
  · intro rest hsplit hno
    constructor
    · unfold create_conversion_domain
      rw [hp]
      dsimp only
      rw [hsplit, py_replace_leading _ _ _ (by simp) hno, List.nil_append]
    · unfold spec_domain
      rw [hp]
      dsimp only
      rw [hsplit, if_pos (isPrefixOf_append_self _ _)]
      rw [show (4 : Nat) = ("www.".data).length from rfl, List.drop_left]

theorem C9_domain_derivation_witness :
    create_conversion_domain "https://www.example.com/a".data
        = some "example.com".data
    ∧ spec_domain "https://www.example.com/a".data = some "example.com".data :=
  (C9_domain_derivation "https://www.example.com/a".data
      ⟨"https".data, "www.example.com".data, "/a".data, [], []⟩ (by rfl)).2.2
    "example.com".data (by rfl) (by rfl)

/-- Taken from the claim's words (the spec side of the refinement): validation
rejects exactly an empty URL, a scheme outside http/https, an empty netloc,
or a hostname (case-insensitively) among the six blocklist literals.  Parse
failure is deliberately NOT among these conditions. -/
def spec_validation_rejects (url : List Char) : Bool :=
  decide (url = []) ||
  (match urlsplit_exc (py_strip url) with
   | .error _ => false
   | .ok parsed =>
       decide (py_lower parsed.scheme ∉ ALLOWED_SCHEMES)
       || parsed.netloc.isEmpty
       || (match netloc_hostname parsed.netloc with
           | some hostname => decide (py_lower hostname ∈ BLOCKED_DOMAINS)
           | none => false))

theorem C10_validation_counterexample :
    validate_url "http://[abc".data = Except.error UrlValidationError.invalid_format
    ∧ spec_validation_rejects "http://[abc".data = false := ⟨rfl, rfl⟩

/-- C10 (amended): URL validation raises a ValidationError exactly when the
URL is empty, the (stripped) URL fails to parse at all (`urlparse` raising
`ValueError`, e.g. on an unmatched bracket in the netloc — an error case the
claim's list omits), or one of the claim's listed conditions holds (scheme
outside http/https, empty netloc, hostname case-insensitively among the six
exact blocklist literals); consequently `http://10.0.0.5/`, whose
private-network host is not one of the exact literals, validates successfully
and is returned normalized. -/
theorem C10_validation_error_cases (url : List Char) :
    ((∃ e, validate_url url = Except.error e) ↔
      (url = [] ∨ (∃ pe, urlsplit_exc (py_strip url) = Except.error pe)
        ∨ spec_validation_rejects url = true))
    ∧ validate_url "http://10.0.0.5/".data = Except.ok "http://10.0.0.5/".data := by
  refine ⟨?_, by rfl⟩
  by_cases h0 : url = []
  · constructor
    · intro _
      exact Or.inl h0
    · intro _
      refine ⟨UrlValidationError.required, ?_⟩
      unfold validate_url
      rw [if_pos h0]
  · cases hps : urlsplit_exc (py_strip url) with
    | error e0 =>
        constructor
        · intro _
          exact Or.inr (Or.inl ⟨e0, rfl⟩)
        · intro _
          refine ⟨UrlValidationError.invalid_format, ?_⟩
          unfold validate_url
          rw [if_neg h0]
          dsimp only
          rw [hps]
    | ok parsed =>
        by_cases hs : py_lower parsed.scheme ∈ ALLOWED_SCHEMES
        · by_cases hn : parsed.netloc = []
          · constructor
            · intro _
              refine Or.inr (Or.inr ?_)
              unfold spec_validation_rejects
              rw [hps]
              simp [hn]
            · intro _
              refine ⟨UrlValidationError.no_hostname, ?_⟩
              unfold validate_url
              rw [if_neg h0]
              dsimp only
              rw [hps]
              dsimp only
              rw [if_neg (not_not_intro hs), if_pos hn]
          · cases hh : netloc_hostname parsed.netloc with
            | none =>
                constructor
                · rintro ⟨e, he⟩
                  unfold validate_url at he
                  rw [if_neg h0] at he
                  dsimp only at he
                  rw [hps] at he
                  dsimp only at he
                  rw [if_neg (not_not_intro hs), if_neg hn, hh] at he
                  exact absurd he (by simp)
                · intro hr
                  rcases hr with h | ⟨pe, hpe⟩ | hr
                  · exact absurd h h0
                  · exact absurd hpe (by simp)
                  · unfold spec_validation_rejects at hr
                    rw [hps] at hr
                    simp [h0, hs, hh, List.isEmpty_iff, hn] at hr
            | some hostname =>
                by_cases hb : py_lower hostname ∈ BLOCKED_DOMAINS
                · constructor
                  · intro _
                    refine Or.inr (Or.inr ?_)
                    unfold spec_validation_rejects
                    rw [hps]
                    simp [hh, hb]
                  · intro _
                    refine ⟨UrlValidationError.blocked_domain, ?_⟩
                    unfold validate_url
                    rw [if_neg h0]
                    dsimp only
                    rw [hps]
                    dsimp only
                    rw [if_neg (not_not_intro hs), if_neg hn, hh]
                    dsimp only
                    rw [if_pos hb]
                · constructor
                  · rintro ⟨e, he⟩
                    unfold validate_url at he
                    rw [if_neg h0] at he
                    dsimp only at he
                    rw [hps] at he
                    dsimp only at he
                    rw [if_neg (not_not_intro hs), if_neg hn, hh] at he
                    dsimp only at he
                    rw [if_neg hb] at he
                    exact absurd he (by simp)
                  · intro hr
                    rcases hr with h | ⟨pe, hpe⟩ | hr
                    · exact absurd h h0
                    · exact absurd hpe (by simp)
                    · unfold spec_validation_rejects at hr
                      rw [hps] at hr
                      simp [h0, hs, hh, hb, List.isEmpty_iff, hn] at hr
        · constructor
          · intro _
            refine Or.inr (Or.inr ?_)
            unfold spec_validation_rejects
            rw [hps]
            simp [hs]
          · intro _
            refine ⟨UrlValidationError.bad_scheme, ?_⟩
            unfold validate_url
            rw [if_neg h0]
            dsimp only
            rw [hps]
            dsimp only
            rw [if_pos hs]

theorem C10_validation_error_cases_witness :
    ∃ e, validate_url "ftp://x.com/".data = Except.error e :=
  (C10_validation_error_cases "ftp://x.com/".data).1.mpr
    (Or.inr (Or.inr (by decide)))
